import Mathlib

set_option maxHeartbeats 1000000
set_option maxRecDepth 8000

/-
Shallow embedding of the splitlease-api ratebook ingestion pipeline
(src/lib/imports/matrix-ratebook.ts, src/lib/imports/extract-headers.ts,
src/lib/imports/generic-ratebook-importer.ts, and the column analyzer's
fallback pattern matcher).

Modelling conventions:
- Raw spreadsheet cells are modelled as their JavaScript string renderings
  (the TypeScript code funnels every cell through String(...)).
- External collaborators (XLSX / csv-parse binary parsing, the crypto
  SHA-256 digest, the Postgres store accessed through drizzle, the OpenAI
  client) are modelled at their interfaces: parsing is an abstract
  `Except String (List Row)` input, the digest is modelled by the raw
  content itself (only determinism of the digest is relied upon), and the
  database is an explicit in-memory state threaded through the importer.
- Bulk-insert failures and the score-recomputation failure are external
  nondeterminism; they enter the model as Boolean oracles.
- String primitives (trim, toUpperCase, join) are re-implemented over
  `String.data` so that all definitions reduce inside the kernel.
-/

/-! ### Character and string helpers (JS semantics on ASCII data) -/

def isDigitChar (c : Char) : Bool := '0' ≤ c && c ≤ '9'

def isAsciiLetter (c : Char) : Bool := ('a' ≤ c && c ≤ 'z') || ('A' ≤ c && c ≤ 'Z')

/-- JS regex word character class `\w` = `[A-Za-z0-9_]`. -/
def isWordChar (c : Char) : Bool := isAsciiLetter c || isDigitChar c || c = '_'

/-- Whitespace recognised by the modelled fragment of JS `\s` and trimming. -/
def isSpaceChar (c : Char) : Bool := c = ' ' || c = '\t' || c = '\n' || c = '\r'

/-- JS `String.prototype.trim` (ASCII whitespace fragment). -/
def jsTrim (s : String) : String :=
  String.mk (((s.data.dropWhile isSpaceChar).reverse.dropWhile isSpaceChar).reverse)

/-- ASCII uppercase of one character. -/
def upChar (c : Char) : Char :=
  if 'a' ≤ c && c ≤ 'z' then Char.ofNat (c.toNat - 32) else c

/-- JS `String.prototype.toUpperCase` (ASCII fragment). -/
def upStr (s : String) : String := String.mk (s.data.map upChar)

/-- Prefix test on character lists. -/
def listStarts : List Char → List Char → Bool
  | [], _ => true
  | _ :: _, [] => false
  | a :: l1, b :: l2 => a == b && listStarts l1 l2

/-- JS `String.prototype.includes`. -/
def strContains (s pat : String) : Bool :=
  s.data.tails.any (fun t => listStarts pat.data t)

/-- JS `Array.prototype.join(" ")`. -/
def joinSpace : List String → String
  | [] => ""
  | [s] => s
  | s :: rest => s ++ " " ++ joinSpace rest

/-- Decimal digits to a natural number. -/
def digitsToNat (cs : List Char) : Nat :=
  cs.foldl (fun a c => a * 10 + (c.toNat - 48)) 0

/-! ### TERM_PATTERN = `\b\d{1,2}\+\d{2}\b` (matrix-ratebook.ts line 3) -/

/-- A `\b` before a word character holds when the previous character is absent or non-word. -/
def boundaryBefore : Option Char → Bool
  | none => true
  | some c => !isWordChar c

/-- A `\b` after a word character holds when the next character is absent or non-word. -/
def boundaryAfterOk : List Char → Bool
  | [] => true
  | c :: _ => !isWordChar c

/-- Does `\b\d{1,2}\+\d{2}\b` match starting exactly here (given the previous character)?
Both quantifier alternatives (two digits, one digit) are tried, as regex backtracking does. -/
def termAt (prev : Option Char) (cs : List Char) : Bool :=
  boundaryBefore prev &&
  ((match cs with
    | a :: b :: '+' :: c :: d :: rest =>
        isDigitChar a && isDigitChar b && isDigitChar c && isDigitChar d && boundaryAfterOk rest
    | _ => false) ||
   (match cs with
    | a :: '+' :: c :: d :: rest =>
        isDigitChar a && isDigitChar c && isDigitChar d && boundaryAfterOk rest
    | _ => false))

def termScan : Option Char → List Char → Bool
  | prev, [] => termAt prev []
  | prev, c :: cs => termAt prev (c :: cs) || termScan (some c) cs

/-- JS `TERM_PATTERN.test(s)`: some position of `s` matches the deposit+term pattern. -/
def termPatternTest (s : String) : Bool := termScan none s.data

/-! ### matrix-ratebook.ts -/

/-- `MATRIX_LABELS` (matrix-ratebook.ts line 4). -/
def MATRIX_LABELS : List String := ["BASE RENTALS", "BCH RATES", "ADD VAT FOR PCH", "PCH", "BCH"]

/-- `normalize` (matrix-ratebook.ts line 19): stringify (already done in the model) and trim. -/
def normalizeCell (s : String) : String := jsTrim s

structure MatrixDetectionResult where
  isMatrix : Bool
  termRowIndex : Option Nat
  labelRowIndex : Option Nat
deriving DecidableEq

/-- A row qualifies as a term row: at least 3 normalized cells match TERM_PATTERN. -/
def termRowPred (row : List String) : Bool :=
  3 ≤ ((row.map normalizeCell).filter termPatternTest).length

/-- A row qualifies as a label row: the space-joined uppercased cell text contains a matrix marker. -/
def labelRowPred (row : List String) : Bool :=
  MATRIX_LABELS.any (fun lab =>
    strContains (upStr (joinSpace (row.map normalizeCell))) lab)

/-- The detection loop of `detectMatrixRatebook` (lines 44-57): both candidate indices are
overwritten whenever a later row qualifies (last match wins). -/
def detectScan : List (List String) → Nat → Option Nat → Option Nat → Option Nat × Option Nat
  | [], _, t, l => (t, l)
  | row :: rest, i, t, l =>
      detectScan rest (i + 1)
        (if termRowPred row then some i else t)
        (if labelRowPred row then some i else l)

/-- `detectMatrixRatebook` (matrix-ratebook.ts lines 29-64), over pre-parsed rows. -/
def detectMatrixRatebook (rows : List (List String)) : MatrixDetectionResult :=
  let tl := detectScan (rows.take 30) 0 none none
  { isMatrix := tl.1.isSome && tl.2.isSome, termRowIndex := tl.1, labelRowIndex := tl.2 }

/-- `extractTermHeaders` (lines 66-68) applied to the normalized term row. -/
def extractTermHeaders (row : List String) : List String :=
  row.filter termPatternTest

/-- The term row index actually used by `parseMatrixToFlat` (`detection.termRowIndex ?? 0`). -/
def matrixTermIndex (rows : List (List String)) : Nat :=
  (detectMatrixRatebook rows).termRowIndex.getD 0

/-- The normalized term-code headers of the matrix, in left-to-right order. -/
def matrixTermHeaders (rows : List (List String)) : List String :=
  extractTermHeaders ((rows.getD (matrixTermIndex rows) []).map normalizeCell)

/-- `findMileageRows` (lines 70-72): rows strictly after the term row whose first cell is
non-empty after trimming (`row[0]` of a short row is undefined, normalizing to ""). -/
def findMileageRows (rows : List (List String)) (termRowIndex : Nat) : List (List String) :=
  (rows.drop (termRowIndex + 1)).filter (fun row => normalizeCell (row.headD "") ≠ "")

/-- The mileage-band rows `parseMatrixToFlat` works from. -/
def matrixMileageRows (rows : List (List String)) : List (List String) :=
  findMileageRows rows (matrixTermIndex rows)

/-- CAP_CODE_PATTERN (line 5) `.test`: existence of a match reduces to a letter run of
length 3-6, a digit run of length 2-4, then at least 4 alphanumerics (the trailing
`\s*[A-Z0-9]*\s*\d*\s*[A-Z]?` parts all match the empty string); case-insensitive. -/
def isAlnumChar (c : Char) : Bool := isAsciiLetter c || isDigitChar c

def capAt (cs : List Char) : Bool :=
  [3, 4, 5, 6].any (fun la =>
    [2, 3, 4].any (fun dg =>
      decide (la + dg + 4 ≤ cs.length) &&
      (cs.take la).all isAsciiLetter &&
      ((cs.drop la).take dg).all isDigitChar &&
      ((cs.drop (la + dg)).take 4).all isAlnumChar))

def capCodePatternTest (s : String) : Bool :=
  s.data.tails.any capAt

/-- JS `value.replace(/\s+/g, " ")` followed by trim. -/
def collapseSpacesGo : List Char → Bool → List Char
  | [], _ => []
  | c :: cs, inRun =>
      if isSpaceChar c then
        if inRun then collapseSpacesGo cs true else ' ' :: collapseSpacesGo cs true
      else c :: collapseSpacesGo cs false

def collapseSpaces (s : String) : String :=
  jsTrim (String.mk (collapseSpacesGo s.data false))

/-- `findCapCode` (lines 91-101): first cell in the first 15 rows matching CAP_CODE_PATTERN. -/
def findCapCode (rows : List (List String)) : Option String :=
  goRows (rows.take 15)
where
  goCells : List String → Option String
    | [] => none
    | c :: cs =>
        let v := normalizeCell c
        if capCodePatternTest v then some (collapseSpaces v) else goCells cs
  goRows : List (List String) → Option String
    | [] => none
    | r :: rs =>
        match goCells r with
        | some v => some v
        | none => goRows rs

/-- `findMetaValue` (lines 74-89): in the first 15 rows, find a cell (not the last of its
row) equal to the label (case-insensitive), then the first non-empty cell to its right. -/
def findMetaValue (rows : List (List String)) (label : String) : Option String :=
  goRows (rows.take 15)
where
  firstNonEmpty : List String → Option String
    | [] => none
    | c :: cs =>
        let v := normalizeCell c
        if v ≠ "" then some v else firstNonEmpty cs
  goCells : List String → Option String
    | [] => none
    | [_] => none
    | c :: c2 :: cs =>
        if upStr (normalizeCell c) = upStr label then
          match firstNonEmpty (c2 :: cs) with
          | some v => some v
          | none => goCells (c2 :: cs)
        else goCells (c2 :: cs)
  goRows : List (List String) → Option String
    | [] => none
    | r :: rs =>
        match goCells r with
        | some v => some v
        | none => goRows rs

/-- JS object assignment `obj[k] = v` on an association-list row object: an
existing key is updated in place (its insertion position is kept), a new key is
appended at the end. Duplicate assignments to the same key therefore collapse
into one entry, as for a JS object. -/
def objSet : List (String × String) → String → String → List (String × String)
  | [], k, v => [(k, v)]
  | (k0, v0) :: rest, k, v =>
      if k0 = k then (k0, v) :: rest else (k0, v0) :: objSet rest k v

/-- The key insertion order produced by a sequence of JS object assignments
starting from the keys `init`: each assigned key is appended on its first
occurrence only. -/
def jsKeyOrder (init : List String) (terms : List String) : List String :=
  terms.foldl (fun ks t => if t ∈ ks then ks else ks ++ [t]) init

structure MatrixParseResult where
  headers : List String
  /-- Row objects are modelled as association lists in JS assignment order:
  `Mileage` first, then the term-header assignments via `objSet`, so duplicate
  term codes collapse into one entry as JS object assignment does. -/
  sampleRows : List (List (String × String))
  metaCapCode : Option String
  metaCapId : Option String
  metaBlp : Option String
  metaOtr : Option String
deriving DecidableEq

/-- `parseMatrixToFlat` (matrix-ratebook.ts lines 103-152), over pre-parsed rows. -/
def parseMatrixToFlat (rows : List (List String)) : MatrixParseResult :=
  let tIdx := matrixTermIndex rows
  let termRow := rows.getD tIdx []
  let termHeaders := matrixTermHeaders rows
  let headers :=
    ["Make", "Model", "Variant", "CAP Code", "CAP ID", "BLP", "OTR",
     "Vehicle Description", "Mileage"] ++ termHeaders
  let mileageRows := matrixMileageRows rows
  let sampleRows := (mileageRows.take 5).map (fun row =>
    termHeaders.foldl (fun acc term =>
        let cellIndex := termRow.findIdx (fun c => normalizeCell c = term)
        objSet acc term (normalizeCell (row.getD cellIndex "")))
      [("Mileage", normalizeCell (row.headD ""))])
  { headers := headers
    sampleRows := sampleRows
    metaCapCode := findCapCode rows
    metaCapId := findMetaValue rows "CAP ID"
    metaBlp := findMetaValue rows "BLP"
    metaOtr := findMetaValue rows "OTR" }

/-! ### extract-headers.ts -/

/-- `HEADER_KEYWORDS` (extract-headers.ts lines 11-22). -/
def HEADER_KEYWORDS : List String :=
  ["MANUFACTURER", "CAP CODE", "CAP_CODE", "CAPCODE", "MILEAGE",
   "RENTAL", "MODEL", "MAKE", "VARIANT", "DERIVATIVE"]

/-- `countFilledCells` (lines 29-31). -/
def countFilledCells (row : List String) : Nat :=
  (row.filter (fun c => normalizeCell c ≠ "")).length

/-- The max-filled-cells loop of `findHeaderRowIndex` (lines 34-44): strict improvement
keeps the earliest row attaining the maximum. -/
def headerLoop : List (List String) → Nat → Nat → Nat → Nat × Nat
  | [], _, maxColumns, headerRowIndex => (maxColumns, headerRowIndex)
  | row :: rest, i, maxColumns, headerRowIndex =>
      if countFilledCells row > maxColumns then
        headerLoop rest (i + 1) (countFilledCells row) i
      else
        headerLoop rest (i + 1) maxColumns headerRowIndex

/-- Does a row's space-joined uppercased text contain a header keyword (lines 50-56)? -/
def keywordRowPred (row : List String) : Bool :=
  HEADER_KEYWORDS.any (fun kw =>
    strContains (upStr (joinSpace (row.map normalizeCell))) kw)

/-- `findHeaderRowIndex` (extract-headers.ts lines 33-59). -/
def findHeaderRowIndex (rawData : List (List String)) : Nat :=
  if (headerLoop (rawData.take 15) 0 0 0).1 ≥ 5 then (headerLoop (rawData.take 15) 0 0 0).2
  else
    match (rawData.take 10).findIdx? keywordRowPred with
    | some i => i
    | none => (headerLoop (rawData.take 15) 0 0 0).2

/-- Header extraction from the chosen row (extract-headers.ts lines 82-86). -/
def headersFromRow (row : List String) : List String :=
  row.enum.map (fun p => if normalizeCell p.2 = "" then "Column " ++ toString (p.1 + 1) else normalizeCell p.2)

/-- The flat-path headers of `extractHeadersFromXlsx` over pre-parsed rows. -/
def extractHeadersFlat (rawData : List (List String)) : List String :=
  headersFromRow (rawData.getD (findHeaderRowIndex rawData) [])

/-! ### Specification-side restatements (from the claims' own words, for comparison) -/

/-- Maximum filled-cell count of a row window. -/
def maxCounts (l : List (List String)) : Nat :=
  (l.map countFilledCells).foldr max 0

/-- Maximum filled-cell count of the 15-row detection window (claim C5's words). -/
def specMaxFilled (rawData : List (List String)) : Nat :=
  maxCounts (rawData.take 15)

/-- Claim C5's description of flat header detection: the row with the maximum filled-cell
count among the first 15 rows (earliest on ties) when that maximum is at least 5, else the
first keyword row among the first 10, else the max-filled-cell row. -/
def specFindHeaderRowIndex (rawData : List (List String)) : Nat :=
  if specMaxFilled rawData ≥ 5 then
    (rawData.take 15).findIdx (fun row => countFilledCells row = specMaxFilled rawData)
  else
    match (rawData.take 10).findIdx? keywordRowPred with
    | some i => i
    | none => (rawData.take 15).findIdx (fun row => countFilledCells row = specMaxFilled rawData)

/-! ### Column analyzer (ai/column-analyzer.ts): DATABASE_FIELDS and fallbackAnalysis -/

/-- `DatabaseFieldKey`: the keys of DATABASE_FIELDS (column-analyzer lines 8-45). -/
inductive DatabaseFieldKey where
  | capCode | manufacturer | model | variant | modelYear | term | annualMileage
  | totalRental | leaseRental | serviceRental | p11d | co2Gkm | fuelType
  | transmission | bodyStyle | excessMileagePpm | wholeLifeCost | otrPrice
  | basicListPrice | insuranceGroup | mpgCombined | wltpEvRange | euroRating
deriving DecidableEq

/-- Declaration order of DATABASE_FIELDS (also the iteration order of the
`patterns` record in `fallbackAnalysis`; JS objects with string keys preserve
insertion order). -/
def fieldOrder : List DatabaseFieldKey :=
  [.capCode, .manufacturer, .model, .variant, .modelYear, .term, .annualMileage,
   .totalRental, .leaseRental, .serviceRental, .p11d, .co2Gkm, .fuelType,
   .transmission, .bodyStyle, .excessMileagePpm, .wholeLifeCost, .otrPrice,
   .basicListPrice, .insuranceGroup, .mpgCombined, .wltpEvRange, .euroRating]

/-- The `required: true` flags of DATABASE_FIELDS. -/
def requiredField : DatabaseFieldKey → Bool
  | .capCode | .manufacturer | .model | .term | .annualMileage | .totalRental => true
  | _ => false

/-- A fragment of a fallback regex: a literal run, or `.?` (at most one
character, not a line break). -/
inductive RxPat where
  | lit : String → RxPat
  | anyOpt : RxPat
deriving DecidableEq

/-- A fallback regex: optional `^` / `$` anchors around a sequence of fragments.
All fallback patterns in the source have this shape. -/
structure Rx where
  anchorStart : Bool
  anchorEnd : Bool
  parts : List RxPat
deriving DecidableEq

/-- Match the fragment sequence starting exactly here; `anchorEnd` forces the
match to consume the whole remainder. -/
def matchParts (anchorEnd : Bool) : List RxPat → List Char → Bool
  | [], cs => !anchorEnd || cs.isEmpty
  | .lit s :: ps, cs =>
      listStarts s.data cs && matchParts anchorEnd ps (cs.drop s.data.length)
  | .anyOpt :: ps, cs =>
      matchParts anchorEnd ps cs ||
        (match cs with
         | c :: cs2 => decide (c ≠ '\n') && decide (c ≠ '\r') && matchParts anchorEnd ps cs2
         | [] => false)

/-- JS `regex.test(header)` for a case-insensitive fallback pattern: both sides
are compared uppercased (all pattern literals below are written uppercased). -/
def rxTest (r : Rx) (s : String) : Bool :=
  let cs := (upStr s).data
  if r.anchorStart then matchParts r.anchorEnd r.parts cs
  else cs.tails.any (fun t => matchParts r.anchorEnd r.parts t)

/-- The `patterns` table of `fallbackAnalysis` (column-analyzer lines 193-217). -/
def fallbackPatterns : DatabaseFieldKey → List Rx
  | .capCode =>
      [⟨false, false, [.lit "CAP", .anyOpt, .lit "CODE"]⟩,
       ⟨false, false, [.lit "CAP", .anyOpt, .lit "ID"]⟩,
       ⟨false, false, [.lit "CAPCODE"]⟩]
  | .manufacturer =>
      [⟨false, false, [.lit "MANUFACTURER"]⟩,
       ⟨true, true, [.lit "MAKE"]⟩,
       ⟨true, true, [.lit "MFR"]⟩]
  | .model =>
      [⟨true, true, [.lit "MODEL"]⟩,
       ⟨false, false, [.lit "MODEL", .anyOpt, .lit "NAME"]⟩]
  | .variant =>
      [⟨false, false, [.lit "VARIANT"]⟩,
       ⟨false, false, [.lit "DERIVATIVE"]⟩,
       ⟨true, true, [.lit "TRIM"]⟩]
  | .modelYear =>
      [⟨false, false, [.lit "MODEL", .anyOpt, .lit "YEAR"]⟩,
       ⟨true, true, [.lit "YEAR"]⟩]
  | .term =>
      [⟨true, true, [.lit "TERM"]⟩,
       ⟨false, false, [.lit "CONTRACT", .anyOpt, .lit "TERM"]⟩,
       ⟨false, false, [.lit "MONTHS"]⟩]
  | .annualMileage =>
      [⟨false, false, [.lit "MILEAGE"]⟩,
       ⟨false, false, [.lit "ANNUAL", .anyOpt, .lit "MILES"]⟩]
  | .totalRental =>
      [⟨true, true, [.lit "RENTAL"]⟩,
       ⟨false, false, [.lit "MONTHLY", .anyOpt, .lit "RENTAL"]⟩,
       ⟨false, false, [.lit "NET", .anyOpt, .lit "RENTAL", .anyOpt, .lit "WM"]⟩,
       ⟨false, true, [.lit "NET", .anyOpt, .lit "RENTAL"]⟩,
       ⟨false, false, [.lit "TOTAL", .anyOpt, .lit "RENTAL"]⟩]
  | .leaseRental =>
      [⟨false, false, [.lit "LEASE", .anyOpt, .lit "RENTAL"]⟩,
       ⟨false, false, [.lit "FINANCE", .anyOpt, .lit "RENTAL"]⟩,
       ⟨false, false, [.lit "NET", .anyOpt, .lit "RENTAL", .anyOpt, .lit "CM"]⟩,
       ⟨false, false, [.lit "CONTRACT", .anyOpt, .lit "RENTAL"]⟩]
  | .serviceRental =>
      [⟨false, false, [.lit "SERVICE", .anyOpt, .lit "RENTAL"]⟩,
       ⟨false, false, [.lit "MAINTENANCE"]⟩]
  | .p11d => [⟨false, false, [.lit "P11D"]⟩]
  | .co2Gkm =>
      [⟨false, false, [.lit "CO2"]⟩,
       ⟨false, false, [.lit "CO2", .anyOpt, .lit "G"]⟩]
  | .fuelType =>
      [⟨false, false, [.lit "FUEL", .anyOpt, .lit "TYPE"]⟩,
       ⟨true, true, [.lit "FUEL"]⟩]
  | .transmission =>
      [⟨false, false, [.lit "TRANSMISSION"]⟩,
       ⟨true, true, [.lit "TRANS"]⟩]
  | .bodyStyle =>
      [⟨false, false, [.lit "BODY", .anyOpt, .lit "STYLE"]⟩,
       ⟨true, true, [.lit "BODY"]⟩]
  | .excessMileagePpm =>
      [⟨false, false, [.lit "EXCESS", .anyOpt, .lit "MILEAGE"]⟩,
       ⟨false, false, [.lit "EMC"]⟩]
  | .wholeLifeCost =>
      [⟨false, false, [.lit "WHOLE", .anyOpt, .lit "LIFE"]⟩,
       ⟨false, false, [.lit "WLC"]⟩]
  | .otrPrice =>
      [⟨true, true, [.lit "OTR"]⟩,
       ⟨true, true, [.lit "OTRP"]⟩,
       ⟨false, false, [.lit "ON", .anyOpt, .lit "THE", .anyOpt, .lit "ROAD"]⟩,
       ⟨false, false, [.lit "OTR", .anyOpt, .lit "PRICE"]⟩]
  | .basicListPrice =>
      [⟨false, false, [.lit "BASIC", .anyOpt, .lit "PRICE"]⟩,
       ⟨false, false, [.lit "BASIC", .anyOpt, .lit "LIST"]⟩,
       ⟨false, false, [.lit "LIST", .anyOpt, .lit "PRICE"]⟩,
       ⟨false, false, [.lit "BASE", .anyOpt, .lit "PRICE"]⟩]
  | .insuranceGroup => [⟨false, false, [.lit "INSURANCE", .anyOpt, .lit "GROUP"]⟩]
  | .mpgCombined =>
      [⟨false, false, [.lit "MPG"]⟩,
       ⟨false, false, [.lit "FUEL", .anyOpt, .lit "ECO"]⟩]
  | .wltpEvRange =>
      [⟨false, false, [.lit "EV", .anyOpt, .lit "RANGE"]⟩,
       ⟨false, false, [.lit "ELECTRIC", .anyOpt, .lit "RANGE"]⟩,
       ⟨false, false, [.lit "WLTP"]⟩]
  | .euroRating => [⟨false, false, [.lit "EURO"]⟩]

structure ColumnMappingEntry where
  sourceColumn : String
  targetField : Option DatabaseFieldKey
  confidence : Nat
  reasoning : String
deriving DecidableEq

structure AnalysisResult where
  mappings : List ColumnMappingEntry
  unmappedColumns : List String
  missingRequiredFields : List DatabaseFieldKey
  suggestedProviderName : String
deriving DecidableEq

/-- `fallbackAnalysis` (column-analyzer lines 192-258): per header, the first
field (in declaration order) owning a matching pattern wins. -/
def fallbackAnalysis (headers : List String) : AnalysisResult :=
  let mappings := headers.map (fun h =>
    match fieldOrder.find? (fun f => (fallbackPatterns f).any (fun rx => rxTest rx h)) with
    | some f =>
        { sourceColumn := h, targetField := some f, confidence := 60,
          reasoning := "Pattern match (fallback)" }
    | none =>
        { sourceColumn := h, targetField := none, confidence := 0,
          reasoning := "No pattern match found" })
  let mappedColumns := (mappings.filter (fun m => m.targetField.isSome)).map (fun m => m.sourceColumn)
  let unmappedColumns := headers.filter (fun h => ¬ mappedColumns.contains h)
  let mappedFields := (mappings.filter (fun m => m.targetField.isSome)).map (fun m => m.targetField)
  let missingRequiredFields :=
    fieldOrder.filter (fun f => requiredField f && ¬ mappedFields.contains (some f))
  { mappings := mappings
    unmappedColumns := unmappedColumns
    missingRequiredFields := missingRequiredFields
    suggestedProviderName := "Unknown Provider" }

/-- The source columns of spec Scenario C / claim C9. -/
def scenarioCHeaders : List String := ["CAP_CODE", "Net_Rental", "ANNUAL_MILEAGE"]

/-! ### generic-ratebook-importer.ts: cell parsing helpers -/

/-- Exact value of a parsed JS number: `num / 10 ^ pow` (floating-point rounding of
the source's `parseFloat` is abstracted away; only integer pence amounts within
claims' reach are computed, where the two agree). -/
structure DecValue where
  num : Int
  pow : Nat
deriving DecidableEq

/-- JS `parseInt(s, 10)`: skip leading whitespace, optional sign, longest digit
prefix; NaN (none) when no digit is found. -/
def jsParseInt (s : String) : Option Int :=
  let cs := s.data.dropWhile isSpaceChar
  let sc : Int × List Char :=
    match cs with
    | '-' :: r => (-1, r)
    | '+' :: r => (1, r)
    | _ => (1, cs)
  let digits := sc.2.takeWhile isDigitChar
  if digits.isEmpty then none else some (sc.1 * digitsToNat digits)

/-- JS `parseFloat(s)`: skip leading whitespace, optional sign, digits, optional
fraction, optional exponent (an incomplete exponent is ignored, as in JS); NaN
(none) when the mantissa has no digit. Special values (Infinity) are not modelled. -/
def jsParseFloat (s : String) : Option DecValue :=
  let cs := s.data.dropWhile isSpaceChar
  let sc : Int × List Char :=
    match cs with
    | '-' :: r => (-1, r)
    | '+' :: r => (1, r)
    | _ => (1, cs)
  let intPart := sc.2.takeWhile isDigitChar
  let rest1 := sc.2.dropWhile isDigitChar
  let fr : List Char × List Char :=
    match rest1 with
    | '.' :: r => (r.takeWhile isDigitChar, r.dropWhile isDigitChar)
    | _ => ([], rest1)
  if intPart.isEmpty && fr.1.isEmpty then none
  else
    let mantNum : Int := sc.1 * (digitsToNat (intPart ++ fr.1))
    let mantPow : Nat := fr.1.length
    let expo : Int :=
      match fr.2 with
      | 'e' :: r | 'E' :: r =>
          let esc : Int × List Char :=
            match r with
            | '-' :: r2 => (-1, r2)
            | '+' :: r2 => (1, r2)
            | _ => (1, r)
          let edigits := esc.2.takeWhile isDigitChar
          if edigits.isEmpty then 0 else esc.1 * digitsToNat edigits
      | _ => 0
    if expo ≥ 0 then some ⟨mantNum * 10 ^ expo.toNat, mantPow⟩
    else some ⟨mantNum, mantPow + (-expo).toNat⟩

/-- JS `Math.round(d * 100)` on an exactly-represented decimal:
`Math.round(x) = ⌊x + 1/2⌋`. -/
def roundTimes100 (d : DecValue) : Int :=
  (d.num * 200 + 10 ^ d.pow).fdiv (2 * 10 ^ d.pow)

/-- `replace(/[,£\s]/g, "")` (toPence, importer line 60). -/
def stripMoneyChars (s : String) : String :=
  String.mk (s.data.filter (fun c => !(c = ',' || c = '£' || isSpaceChar c)))

/-- `replace(/,/g, "")` (parseInt2, importer line 72). -/
def stripCommas (s : String) : String :=
  String.mk (s.data.filter (fun c => c ≠ ','))

/-- `toPence` (importer lines 56-63) on an extracted (string) cell value.
null/undefined/""/"0" are the zero sentinels returning null. -/
def toPence (value : Option String) : Option Int :=
  match value with
  | none => none
  | some v =>
      if v = "" || v = "0" then none
      else
        match jsParseFloat (stripMoneyChars v) with
        | none => none
        | some d => some (roundTimes100 d)

/-- `parseInt2` (importer lines 68-74) on an extracted (string) cell value. -/
def parseInt2 (value : Option String) : Option Int :=
  match value with
  | none => none
  | some v => if jsTrim v = "" then none else jsParseInt (stripCommas v)

/-- JS `intOption || default` (0 and null are both falsy). -/
def orDefaultInt (v : Option Int) (d : Int) : Int :=
  match v with
  | some n => if n = 0 then d else n
  | none => d

/-- JS `strOption || default` ("" and null are both falsy). -/
def orDefaultStr (v : Option String) (d : String) : String :=
  match v with
  | some s => if s = "" then d else s
  | none => d

/-- JS `strOption ? String(strOption) : null`. -/
def jsTruthyStr (v : Option String) : Option String :=
  match v with
  | some s => if s = "" then none else some s
  | none => none

/-! ### generic-ratebook-importer.ts: data model -/

/-- A parsed record row: source column name to (stringified) cell value.
A missing key models an undefined cell. -/
def Row := List (String × String)

/-- `extractValue` (importer lines 159-172): the first mapping entry whose target
is the wanted field decides the source column; the function returns that cell
(null if undefined) without consulting later entries. -/
def extractValue (row : Row) (targetField : DatabaseFieldKey)
    (columnMappings : List (String × Option DatabaseFieldKey)) : Option String :=
  match columnMappings.find? (fun p => decide (p.2 = some targetField)) with
  | some p => List.lookup p.1 row
  | none => none

/-- One normalized lease-rate row (`providerRates` insert shape, lines 332-374;
fields the source always sets to null are omitted). -/
structure Rate where
  capCode : String
  importId : Nat
  providerCode : String
  contractType : String
  manufacturer : String
  model : String
  variant : Option String
  term : Int
  annualMileage : Int
  totalRental : Int
  leaseRental : Option Int
  serviceRental : Option Int
  p11d : Option Int
  co2Gkm : Option Int
  fuelType : Option String
  transmission : Option String
  bodyStyle : Option String
  modelYear : Option String
  excessMileagePpm : Option Int
  wholeLifeCost : Option Int
  otrPrice : Option Int
  basicListPrice : Option Int
  insuranceGroup : Option String
  fuelEcoCombined : Option String
  wltpEvRange : Option Int
  euroRating : Option String
  vehicleId : Option Nat
deriving DecidableEq

/-- Row-to-Rate construction (importer lines 296-376), for a row that passed the
CAP-code check. -/
def buildRate (importId : Nat) (providerCode contractType : String)
    (cm : List (String × Option DatabaseFieldKey)) (row : Row) : Rate :=
  { capCode := jsTrim ((extractValue row .capCode cm).getD "")
    importId := importId
    providerCode := providerCode
    contractType := contractType
    manufacturer := upStr (jsTrim (orDefaultStr (extractValue row .manufacturer cm) "UNKNOWN"))
    model := jsTrim (orDefaultStr (extractValue row .model cm) "Unknown")
    variant := jsTruthyStr (extractValue row .variant cm)
    term := orDefaultInt (parseInt2 (extractValue row .term cm)) 36
    annualMileage := orDefaultInt (parseInt2 (extractValue row .annualMileage cm)) 10000
    totalRental := orDefaultInt (toPence (extractValue row .totalRental cm)) 0
    leaseRental := toPence (extractValue row .leaseRental cm)
    serviceRental := toPence (extractValue row .serviceRental cm)
    p11d := toPence (extractValue row .p11d cm)
    co2Gkm := parseInt2 (extractValue row .co2Gkm cm)
    fuelType := jsTruthyStr (extractValue row .fuelType cm)
    transmission := jsTruthyStr (extractValue row .transmission cm)
    bodyStyle := jsTruthyStr (extractValue row .bodyStyle cm)
    modelYear := jsTruthyStr (extractValue row .modelYear cm)
    excessMileagePpm := toPence (extractValue row .excessMileagePpm cm)
    wholeLifeCost := toPence (extractValue row .wholeLifeCost cm)
    otrPrice := toPence (extractValue row .otrPrice cm)
    basicListPrice := toPence (extractValue row .basicListPrice cm)
    insuranceGroup := jsTruthyStr (extractValue row .insuranceGroup cm)
    fuelEcoCombined := jsTruthyStr (extractValue row .mpgCombined cm)
    wltpEvRange := parseInt2 (extractValue row .wltpEvRange cm)
    euroRating := jsTruthyStr (extractValue row .euroRating cm)
    vehicleId := none }

/-- One `ratebookImports` record. Fields not touched by the importer's logic
(providerId, startedAt, createdBy) are omitted; `createdAt` is the insertion
timestamp quoted by the duplicate-rejection message. -/
structure ImportBatchRec where
  id : Nat
  providerCode : String
  contractType : String
  batchId : String
  fileName : String
  fileHash : String
  status : String
  isLatest : Bool
  totalRows : Nat
  successRows : Int
  errorRows : Nat
  uniqueCapCodes : Nat
  errorLog : Option (List String)
  createdAt : Nat
  completedAt : Option Nat
deriving DecidableEq

/-- One `financeProviders` record (get-or-create target, lines 204-217). -/
structure Provider where
  code : String
  name : String
  isActive : Bool
  supportedContractTypes : List String
deriving DecidableEq

/-- One `vehicles` record (the fields the cross-reference reads, lines 391-398). -/
structure Vehicle where
  id : Nat
  capCode : String
  manufacturer : String
  model : String
  variant : Option String
deriving DecidableEq

/-- The modelled database: list order stands for the storage's enumeration
order; `nextImportId` is the id generator; `now` is the ambient clock. -/
structure DBState where
  imports : List ImportBatchRec
  rates : List Rate
  providers : List Provider
  vehicles : List Vehicle
  nextImportId : Nat
  now : Nat
deriving DecidableEq

/-- `GenericImportResult` (importer lines 9-18); the rejection branch's empty
importId string is modelled as none. -/
structure GenericImportResult where
  success : Bool
  importId : Option Nat
  batchId : String
  totalRows : Nat
  successRows : Int
  errorRows : Nat
  uniqueCapCodes : Nat
  errors : List String
deriving DecidableEq

structure ImportOptions where
  fileName : String
  contractType : String
  fileContent : String
  providerCode : String
  columnMappings : List (String × Option DatabaseFieldKey)
deriving DecidableEq

/-- The counter tuple persisted by each progress / finalize update
(totalRows, successRows, errorRows, uniqueCapCodes). -/
structure ProgressWrite where
  totalRows : Nat
  successRows : Int
  errorRows : Nat
  uniqueCapCodes : Nat
deriving DecidableEq

/-- SHA-256 of the raw content (crypto, external): modelled by the content
itself — the importer relies only on the digest being a function of the bytes. -/
def generateFileHash (content : String) : String := content

/-- `generateBatchId` (lines 86-89); `Date.now()` is the ambient clock. -/
def generateBatchId (providerCode contractType : String) (now : Nat) : String :=
  providerCode ++ "_" ++ String.mk (contractType.data.map Char.toLower) ++ "_" ++ toString now

/-- The duplicate lookup (lines 184-188): first stored batch with the same
fileHash and providerCode. -/
def dupCheck (st : DBState) (fileHash providerCode : String) : Option ImportBatchRec :=
  st.imports.find? (fun b => decide (b.fileHash = fileHash) && decide (b.providerCode = providerCode))

/-- JS `pc.charAt(0).toUpperCase() + pc.slice(1)`. -/
def capitalizeFirst (s : String) : String :=
  match s.data with
  | [] => ""
  | c :: cs => String.mk (upChar c :: cs)

/-- Get-or-create of the provider registry entry (lines 204-217). -/
def getOrCreateProvider (st : DBState) (providerCode : String) : DBState :=
  match st.providers.find? (fun p => decide (p.code = providerCode)) with
  | some _ => st
  | none =>
      { st with providers := st.providers ++
          [{ code := providerCode, name := capitalizeFirst providerCode, isActive := true,
             supportedContractTypes := ["CH", "CHNM", "PCH", "PCHNM"] }] }

/-- The demotion update (lines 219-229): every latest batch of the same
(providerCode, contractType) loses its latest flag. -/
def demoteLatest (providerCode contractType : String) (l : List ImportBatchRec) : List ImportBatchRec :=
  l.map (fun b =>
    if b.providerCode = providerCode ∧ b.contractType = contractType ∧ b.isLatest then
      { b with isLatest := false }
    else b)

/-- The freshly inserted ImportBatch (lines 231-246); counter columns start at
their storage defaults. -/
def newImportBatch (st : DBState) (opts : ImportOptions) (fileHash batchId : String) : ImportBatchRec :=
  { id := st.nextImportId
    providerCode := opts.providerCode
    contractType := opts.contractType
    batchId := batchId
    fileName := opts.fileName
    fileHash := fileHash
    status := "processing"
    isLatest := true
    totalRows := 0
    successRows := 0
    errorRows := 0
    uniqueCapCodes := 0
    errorLog := none
    createdAt := st.now
    completedAt := none }

/-- The parse-failure update (lines 265-268). -/
def setParseFailed (importId : Nat) (msg : String) (l : List ImportBatchRec) : List ImportBatchRec :=
  l.map (fun b =>
    if b.id = importId then { b with status := "failed", errorLog := some [msg] } else b)

/-- The per-batch progress update (lines 434-443). -/
def setCounters (importId : Nat) (w : ProgressWrite) (l : List ImportBatchRec) : List ImportBatchRec :=
  l.map (fun b =>
    if b.id = importId then
      { b with totalRows := w.totalRows, successRows := w.successRows,
               errorRows := w.errorRows, uniqueCapCodes := w.uniqueCapCodes }
    else b)

/-- The finalize update (lines 468-481). -/
def finalizeImport (importId : Nat) (status : String) (w : ProgressWrite)
    (errors : List String) (now : Nat) (l : List ImportBatchRec) : List ImportBatchRec :=
  l.map (fun b =>
    if b.id = importId then
      { b with status := status, totalRows := w.totalRows, successRows := w.successRows,
               errorRows := w.errorRows, uniqueCapCodes := w.uniqueCapCodes,
               errorLog := if errors.length > 0 then some (errors.take 100) else none,
               completedAt := some now }
    else b)

/-- JS `Set.prototype.add`: append when absent (insertion-ordered uniqueness). -/
def setAdd (l : List String) (c : String) : List String :=
  if l.contains c then l else l ++ [c]

/-- Accumulator of the per-row loop inside one 100-row sub-batch. -/
structure RowAcc where
  rates : List Rate
  successRows : Int
  errorRows : Nat
  capCodes : List String
  errors : List String
deriving DecidableEq

/-- The per-row loop (importer lines 293-382): a row with an empty CAP code is
counted and recorded as an error and skipped; any other row becomes a Rate.
`i` is the sub-batch's starting index, `k` the position within the sub-batch
(the source's `batch.indexOf(row)` on distinct parsed row objects). -/
def processRows (importId : Nat) (providerCode contractType : String)
    (cm : List (String × Option DatabaseFieldKey)) (i : Nat) :
    Nat → List Row → RowAcc → RowAcc
  | _, [], acc => acc
  | k, row :: rest, acc =>
      let capCode := jsTrim ((extractValue row .capCode cm).getD "")
      if capCode = "" then
        processRows importId providerCode contractType cm i (k + 1) rest
          { acc with
            errorRows := acc.errorRows + 1,
            errors := acc.errors ++ ["Row " ++ toString (i + k + 2) ++ ": Missing CAP Code"] }
      else
        processRows importId providerCode contractType cm i (k + 1) rest
          { acc with
            rates := acc.rates ++ [buildRate importId providerCode contractType cm row],
            successRows := acc.successRows + 1,
            capCodes := setAdd acc.capCodes capCode }

/-- Vehicle backfill for one rate (lines 404-421). -/
def applyVehicle (v : Vehicle) (r : Rate) : Rate :=
  { r with
    vehicleId := some v.id
    manufacturer := if r.manufacturer = "" ∨ r.manufacturer = "UNKNOWN" then v.manufacturer else r.manufacturer
    model := if r.model = "" ∨ r.model = "Unknown" then v.model else r.model
    variant :=
      match r.variant with
      | none => match v.variant with
                | some s => if s = "" then none else some s
                | none => none
      | some s => some s }

/-- The vehicle cross-reference of one sub-batch (lines 385-422): look up the
sub-batch's distinct CAP codes, build last-wins code-to-vehicle map, backfill. -/
def crossRef (vehicles : List Vehicle) (rates : List Rate) : List Rate :=
  let batchCapCodes := ((rates.map (fun r => r.capCode)).filter (fun c => c ≠ "")).foldl setAdd []
  let vehicleMatches := vehicles.filter (fun v => batchCapCodes.contains v.capCode)
  rates.map (fun r =>
    if r.capCode ≠ "" then
      match (vehicleMatches.filter (fun v => v.capCode = r.capCode)).getLast? with
      | some v => applyVehicle v r
      | none => r
    else r)

/-- State threaded through the sub-batch loop, including the log of persisted
counter writes. -/
structure LoopState where
  db : DBState
  successRows : Int
  errorRows : Nat
  capCodes : List String
  errors : List String
  writes : List ProgressWrite
deriving DecidableEq

/-- The vehicle cross-reference plus bulk insert of one sub-batch (lines
385-432): on an insert failure the whole sub-batch counts as errors and the
success counter is rolled back; otherwise the (backfilled) rates are stored.
Returns the post-insert database and the new success / error / error-list
values. -/
def subBatchOutcome (insertFails : Nat → Bool) (i : Nat) (db : DBState) (pr : RowAcc) :
    DBState × Int × Nat × List String :=
  if pr.rates.length > 0 then
    if insertFails i then
      (db, pr.successRows - pr.rates.length, pr.errorRows + pr.rates.length,
       pr.errors ++ ["Batch insert error at row " ++ toString i])
    else
      ({ db with rates := db.rates ++ crossRef db.vehicles pr.rates },
       pr.successRows, pr.errorRows, pr.errors)
  else (db, pr.successRows, pr.errorRows, pr.errors)

/-- The 100-row sub-batch loop (lines 289-444). `insertFails i` tells whether the
bulk insert of the sub-batch starting at row index `i` throws (external store
nondeterminism). The first argument is structural fuel: every iteration consumes
at least one row, so fuel equal to the row count (as supplied by
`importGenericRatebook`) never runs out. -/
def runBatches (importId : Nat) (providerCode contractType : String)
    (cm : List (String × Option DatabaseFieldKey)) (insertFails : Nat → Bool)
    (totalRows : Nat) : Nat → List Row → Nat → LoopState → LoopState
  | _, [], _, s => s
  | 0, _ :: _, _, s => s
  | fuel + 1, r :: rs, i, s =>
      let pr := processRows importId providerCode contractType cm i 0 ((r :: rs).take 100)
        ⟨[], s.successRows, s.errorRows, s.capCodes, s.errors⟩
      let step := subBatchOutcome insertFails i s.db pr
      let w : ProgressWrite := ⟨totalRows, step.2.1, step.2.2.1, pr.capCodes.length⟩
      runBatches importId providerCode contractType cm insertFails totalRows
        fuel ((r :: rs).drop 100) (i + 100)
        ⟨{ step.1 with imports := setCounters importId w step.1.imports },
         step.2.1, step.2.2.1, pr.capCodes, step.2.2.2, s.writes ++ [w]⟩

/-- `importGenericRatebook` (importer lines 177-493). `parsed` abstracts the
XLSX/csv-parse step on `opts.fileContent` (external libraries); `insertFails`
and `scoreFails` are the store-failure oracles. Returns the post-state, the
result, and the ordered log of persisted counter writes. -/
def importGenericRatebook (st : DBState) (opts : ImportOptions)
    (parsed : Except String (List Row)) (insertFails : Nat → Bool) (scoreFails : Bool) :
    DBState × GenericImportResult × List ProgressWrite :=
  let fileHash := generateFileHash opts.fileContent
  let batchId := generateBatchId opts.providerCode opts.contractType st.now
  match dupCheck st fileHash opts.providerCode with
  | some prior =>
      (st,
       { success := false, importId := none, batchId := batchId, totalRows := 0,
         successRows := 0, errorRows := 0, uniqueCapCodes := 0,
         errors := ["Duplicate file detected. This ratebook was already imported on "
                     ++ toString prior.createdAt] },
       [])
  | none =>
      let st1 := getOrCreateProvider st opts.providerCode
      let st2 := { st1 with imports := demoteLatest opts.providerCode opts.contractType st1.imports }
      let importId := st2.nextImportId
      let b0 := newImportBatch st2 opts fileHash batchId
      let st3 := { st2 with imports := st2.imports ++ [b0], nextImportId := st2.nextImportId + 1 }
      match parsed with
      | .error msg =>
          let st4 := { st3 with imports := setParseFailed importId ("Parse error: " ++ msg) st3.imports }
          (st4,
           { success := false, importId := some importId, batchId := batchId, totalRows := 0,
             successRows := 0, errorRows := 1, uniqueCapCodes := 0,
             errors := ["File parse error: " ++ msg] },
           [])
      | .ok records =>
          let totalRows := records.length
          let ls := runBatches importId opts.providerCode opts.contractType opts.columnMappings
            insertFails totalRows records.length records 0 ⟨st3, 0, 0, [], [], []⟩
          -- score recomputation (db.execute, lines 447-466) only touches score
          -- columns outside this model; its failure appends to the error list
          let errs := if scoreFails then ls.errors ++ ["Score calculation failed"] else ls.errors
          -- JS compares against the real number totalRows / 2
          let finalStatus := if totalRows < 2 * ls.errorRows then "failed" else "completed"
          let wFinal : ProgressWrite := ⟨totalRows, ls.successRows, ls.errorRows, ls.capCodes.length⟩
          let st5 := { ls.db with imports := finalizeImport importId finalStatus wFinal errs ls.db.now ls.db.imports }
          (st5,
           { success := decide (finalStatus = "completed"), importId := some importId,
             batchId := batchId, totalRows := totalRows, successRows := ls.successRows,
             errorRows := ls.errorRows, uniqueCapCodes := ls.capCodes.length,
             errors := errs.take 20 },
           ls.writes ++ [wFinal])

/-! ### Importer invariant vocabulary -/

/-- Number of latest batches stored for one (providerCode, contractType) key. -/
def latestCount (st : DBState) (providerCode contractType : String) : Nat :=
  st.imports.countP (fun b =>
    decide (b.providerCode = providerCode) && decide (b.contractType = contractType) && b.isLatest)

/-- Claim C2's invariant: at most one latest batch per key. -/
def atMostOneLatest (st : DBState) : Prop :=
  ∀ providerCode contractType, latestCount st providerCode contractType ≤ 1

/-- Well-formed id supply: every stored batch id is below the generator. -/
def freshIds (st : DBState) : Prop :=
  ∀ b ∈ st.imports, b.id < st.nextImportId

/-- Componentwise order on persisted counter writes (claim C8). -/
def progressLe (w1 w2 : ProgressWrite) : Prop :=
  w1.totalRows ≤ w2.totalRows ∧ w1.successRows ≤ w2.successRows ∧
    w1.errorRows ≤ w2.errorRows ∧ w1.uniqueCapCodes ≤ w2.uniqueCapCodes

/-- The fields of a stored batch consulted by the duplicate check and quoted by
the rejection message (never modified by any update of the importer). -/
def dupKey (b : ImportBatchRec) : String × String × Nat :=
  (b.fileHash, b.providerCode, b.createdAt)

/-- Batch id together with the latest flag (untouched by counter updates). -/
def idLatest (b : ImportBatchRec) : Nat × Bool := (b.id, b.isLatest)

/-- The (providerCode, contractType, isLatest) key of the single-latest invariant. -/
def latKey (b : ImportBatchRec) : String × String × Bool :=
  (b.providerCode, b.contractType, b.isLatest)

/-- Last qualifying index scan, starting at offset `i`; later matches take
priority (the shape of claim C4's last-match-wins detection). -/
def lastIdxFrom (p : List String → Bool) : List (List String) → Nat → Option Nat
  | [], _ => none
  | row :: rest, i => (lastIdxFrom p rest (i + 1)).or (if p row then some i else none)

/-- First source column (in mapping enumeration order) mapped to a target field
(claim C10's words). -/
def firstMappedColumn (cm : List (String × Option DatabaseFieldKey))
    (target : DatabaseFieldKey) : Option String :=
  ((cm.filter (fun p => decide (p.2 = some target))).head?).map Prod.fst

/-! ### Concrete scenario data -/

/-- Spec Scenario A rows (concrete completion of the spec's ellipses). -/
def scenarioARows : List (List String) :=
  [["Broker - CHcm5k", "45993.071"],
   ["TERM", "ANNUAL_MILEAGE", "MANUFACTURER", "MODEL", "VARIANT", "CAP CODE", "CAP ID", "RENTAL"],
   ["40667"],
   ["24", "5000", "Alfa Romeo", "Giulia", "Sprint", "ALF123", "12345", "299.99"]]

/-- Spec Scenario B rows (as in the repository's extract-headers matrix test). -/
def scenarioBRows : List (List String) :=
  [["CAP ID", "", "", "", "", "", "", "", "108321", "", "", "OTR", "25000"],
   ["Hyundai", "Tucson", "(2024)", "", "BCH RATES ADD VAT FOR PCH", "", "", "", "BASE RENTALS"],
   ["", "1+23", "1+35", "1+47"],
   ["5k - Non Maintained", "£344.90", "£292.07", "£292.71"]]

/-- A matrix table with six mileage-band rows (exceeding the sample cap). -/
def sixBandMatrixRows : List (List String) :=
  [["Hyundai", "Tucson", "BASE RENTALS"],
   ["", "1+23", "1+35", "1+47"],
   ["5k", "£100.00", "£101.00", "£102.00"],
   ["8k", "£110.00", "£111.00", "£112.00"],
   ["10k", "£120.00", "£121.00", "£122.00"],
   ["12k", "£130.00", "£131.00", "£132.00"],
   ["15k", "£140.00", "£141.00", "£142.00"],
   ["20k", "£150.00", "£151.00", "£152.00"]]

/-- A stored batch that is latest for the key ("lex", "CH"). -/
def demoBatch : ImportBatchRec :=
  { id := 0, providerCode := "lex", contractType := "CH", batchId := "lex_ch_900",
    fileName := "old.csv", fileHash := "oldbytes", status := "completed", isLatest := true,
    totalRows := 1, successRows := 1, errorRows := 0, uniqueCapCodes := 1,
    errorLog := none, createdAt := 900, completedAt := some 901 }

/-- A database holding one prior latest batch. -/
def demoDb : DBState := ⟨[demoBatch], [], [], [], 1, 1000⟩

/-- An empty database. -/
def emptyDb : DBState := ⟨[], [], [], [], 0, 1000⟩

def demoOpts : ImportOptions :=
  { fileName := "a.csv", contractType := "CH", fileContent := "newbytes", providerCode := "lex",
    columnMappings := [("CAP", some .capCode), ("RENT", some .totalRental)] }

/-- Two parsed rows: one fine, one with an empty CAP code. -/
def demoRows : List Row := [[("CAP", "ABC1"), ("RENT", "100")], [("CAP", ""), ("RENT", "5")]]

/-- A row whose first capCode-mapped column is empty while a later one is not. -/
def firstWinsRow : Row := [("A", ""), ("B", "X")]

def firstWinsCm : List (String × Option DatabaseFieldKey) :=
  [("A", some .capCode), ("B", some .capCode)]


/-! ### Helper lemmas -/

theorem find?_eq_head_filter {α} (p : α → Bool) (l : List α) :
    l.find? p = (l.filter p).head? := by
  induction l with
  | nil => rfl
  | cons a l ih =>
      cases h : p a with
      | true => rw [List.find?_cons_of_pos _ h, List.filter_cons_of_pos h, List.head?_cons]
      | false =>
          rw [List.find?_cons_of_neg _ (by simp [h]), List.filter_cons_of_neg (by simp [h]), ih]

theorem objSet_nil (k v : String) : objSet [] k v = [(k, v)] := rfl

theorem objSet_cons (k0 v0 k v : String) (rest : List (String × String)) :
    objSet ((k0, v0) :: rest) k v
      = if k0 = k then (k0, v) :: rest else (k0, v0) :: objSet rest k v := rfl

/-- The key list after a JS assignment: unchanged if the key exists, else the key
is appended. -/
theorem objSet_map_fst (k v : String) (acc : List (String × String)) :
    (objSet acc k v).map Prod.fst
      = if k ∈ acc.map Prod.fst then acc.map Prod.fst
        else acc.map Prod.fst ++ [k] := by
  induction acc with
  | nil => simp [objSet_nil]
  | cons p rest ih =>
      obtain ⟨k0, v0⟩ := p
      rw [objSet_cons]
      by_cases hk : k0 = k
      · subst hk
        rw [if_pos rfl]
        simp only [List.map_cons]
        rw [if_pos (List.mem_cons_self _ _)]
      · rw [if_neg hk]
        simp only [List.map_cons]
        rw [ih]
        by_cases hmem : k ∈ rest.map Prod.fst
        · rw [if_pos hmem, if_pos (List.mem_cons_of_mem _ hmem)]
        · rw [if_neg hmem,
            if_neg (fun hx => (List.mem_cons.mp hx).elim (fun h1 => hk h1.symm) hmem),
            List.cons_append]

/-- The keys of a fold of JS assignments are exactly the JS key insertion order. -/
theorem foldl_objSet_map_fst (f : String → String) (terms : List String) :
    ∀ acc : List (String × String),
      (terms.foldl (fun a t => objSet a t (f t)) acc).map Prod.fst
        = jsKeyOrder (acc.map Prod.fst) terms := by
  induction terms with
  | nil => intro acc; rfl
  | cons t ts ih =>
      intro acc
      rw [List.foldl_cons, ih, objSet_map_fst]
      rfl

/-- A fold of JS assignments none of which targets the first entry's key leaves
that first entry in place, value included. -/
theorem foldl_objSet_head (f : String → String) (terms : List String) :
    ∀ (k0 v0 : String) (rest : List (String × String)), (∀ t ∈ terms, t ≠ k0) →
      terms.foldl (fun a t => objSet a t (f t)) ((k0, v0) :: rest)
        = (k0, v0) :: terms.foldl (fun a t => objSet a t (f t)) rest := by
  induction terms with
  | nil => intro k0 v0 rest _; rfl
  | cons t ts ih =>
      intro k0 v0 rest hne
      rw [List.foldl_cons, objSet_cons,
        if_neg (fun he => hne t (List.mem_cons_self _ _) he.symm),
        ih k0 v0 _ (fun t' ht' => hne t' (List.mem_cons_of_mem _ ht')), List.foldl_cons]

/-- A JS assignment to a key not yet present appends the entry. -/
theorem objSet_of_not_mem (k v : String) (acc : List (String × String))
    (h : k ∉ acc.map Prod.fst) :
    objSet acc k v = acc ++ [(k, v)] := by
  induction acc with
  | nil => rfl
  | cons p rest ih =>
      obtain ⟨k0, v0⟩ := p
      simp only [List.map_cons] at h
      have hk : k0 ≠ k := fun he => h (by rw [← he]; exact List.mem_cons_self _ _)
      have h2 : k ∉ rest.map Prod.fst := fun hm => h (List.mem_cons_of_mem _ hm)
      rw [objSet_cons, if_neg hk, ih h2, List.cons_append]

/-- When the assigned keys are pairwise distinct and all fresh for the
accumulator, a fold of JS assignments is a plain append of one entry per key. -/
theorem foldl_objSet_fresh (f : String → String) (terms : List String) :
    ∀ acc : List (String × String), terms.Nodup →
      (∀ t ∈ terms, t ∉ acc.map Prod.fst) →
      terms.foldl (fun a t => objSet a t (f t)) acc
        = acc ++ terms.map (fun t => (t, f t)) := by
  induction terms with
  | nil => intro acc _ _; simp
  | cons t ts ih =>
      intro acc hnd hfresh
      have hfresh2 : ∀ t' ∈ ts, t' ∉ (acc ++ [(t, f t)]).map Prod.fst := by
        intro t' ht' hmem
        rw [List.map_append] at hmem
        rcases List.mem_append.mp hmem with h1 | h2
        · exact hfresh t' (List.mem_cons_of_mem _ ht') h1
        · have he : t' = t := by simpa using h2
          exact (List.nodup_cons.mp hnd).1 (he ▸ ht')
      rw [List.foldl_cons, objSet_of_not_mem _ _ _ (hfresh t (List.mem_cons_self _ _)),
        ih _ (List.Nodup.of_cons hnd) hfresh2]
      simp

/-- A term-code header is never the literal key "Mileage". -/
theorem termHeader_ne_mileage (s : String) (h : termPatternTest s = true) :
    s ≠ "Mileage" := by
  intro he
  subst he
  exact absurd h (by decide)

/-! ### Claim theorems -/

/-- C9 counterexample: for the Scenario C source columns, the fallback resolution
does report required canonical fields as unmapped (manufacturer, model, term),
contradicting the claim that no required field is left required-but-unmapped. -/
theorem C9_counterexample_missing_required :
    (fallbackAnalysis scenarioCHeaders).missingRequiredFields ≠ []
    ∧ (fallbackAnalysis scenarioCHeaders).missingRequiredFields
        = [.manufacturer, .model, .term] := by
  decide

/-- C9 (amended): for source columns CAP_CODE, Net_Rental, ANNUAL_MILEAGE with no
stored mapping, the heuristic resolver maps CAP_CODE to capCode, Net_Rental to
totalRental and ANNUAL_MILEAGE to annualMileage (each a confidence-60 pattern
match) and leaves no source column unmapped; however, the resolution reports the
required fields manufacturer, model and term as missing, since no source column
maps to them. -/
theorem C9_scenarioC_amended :
    (fallbackAnalysis scenarioCHeaders).mappings =
      [{ sourceColumn := "CAP_CODE", targetField := some .capCode, confidence := 60,
         reasoning := "Pattern match (fallback)" },
       { sourceColumn := "Net_Rental", targetField := some .totalRental, confidence := 60,
         reasoning := "Pattern match (fallback)" },
       { sourceColumn := "ANNUAL_MILEAGE", targetField := some .annualMileage, confidence := 60,
         reasoning := "Pattern match (fallback)" }]
    ∧ (fallbackAnalysis scenarioCHeaders).unmappedColumns = []
    ∧ (fallbackAnalysis scenarioCHeaders).missingRequiredFields
        = [.manufacturer, .model, .term] := by
  decide

/-- C10: extractValue returns the row's value under the first source column (in
the mapping's enumeration order) whose mapped field equals the target — none when
that cell is missing or no column maps to the target — and never consults later
columns mapped to the same field, even when the first one's value is empty and a
later one is non-empty (witnessed by the concrete conjuncts: column B's value X
is ignored in favour of column A's empty string). -/
theorem C10_extractValue_first_mapping :
    (∀ (row : Row) (target : DatabaseFieldKey) (cm : List (String × Option DatabaseFieldKey)),
        extractValue row target cm
          = (firstMappedColumn cm target).bind (fun src => List.lookup src row))
    ∧ extractValue firstWinsRow .capCode firstWinsCm = some ""
    ∧ List.lookup "B" firstWinsRow = some "X"
    ∧ extractValue firstWinsRow .term firstWinsCm = none := by
  refine ⟨?_, by decide, by decide, by decide⟩
  intro row target cm
  unfold extractValue firstMappedColumn
  rw [find?_eq_head_filter]
  cases (cm.filter (fun p => decide (p.2 = some target))).head? with
  | none => rfl
  | some p => rfl

/-- C3 counterexample: a matrix-shaped table with six mileage-band rows produces
only five output row objects — `parseMatrixToFlat` caps its `sampleRows` at 5 —
refuting the claim that exactly N row objects are produced. -/
theorem C3_counterexample_sample_cap :
    (detectMatrixRatebook sixBandMatrixRows).isMatrix = true
    ∧ (matrixMileageRows sixBandMatrixRows).length = 6
    ∧ (parseMatrixToFlat sixBandMatrixRows).sampleRows.length = 5 := by
  decide

/-- C3 (amended): for every matrix-shaped RawTable with N mileage-band rows and
M term-code columns, parseMatrixToFlat produces exactly min N 5 output row
objects (the function emits a preview capped at the first five mileage-band
rows); each row object's first entry is its Mileage field, equal to that row's
first (trimmed) cell, and its keys follow JS object-insertion order over the
assignments Mileage then the M term codes — duplicate term codes collapse into
one entry — so when the M term codes are pairwise distinct the object has
exactly M term-code values (keys Mileage then the M term codes in order); the
header list equals the fixed prefix followed by the M term codes (duplicates
retained) in left-to-right order of the term row. -/
theorem C3_matrix_transposer_amended (rows : List (List String))
    (h : (detectMatrixRatebook rows).isMatrix = true) :
    (parseMatrixToFlat rows).headers
        = ["Make", "Model", "Variant", "CAP Code", "CAP ID", "BLP", "OTR",
           "Vehicle Description", "Mileage"] ++ matrixTermHeaders rows
    ∧ (parseMatrixToFlat rows).sampleRows.length = min (matrixMileageRows rows).length 5
    ∧ ∀ k (hk : k < (parseMatrixToFlat rows).sampleRows.length),
        ((parseMatrixToFlat rows).sampleRows.get ⟨k, hk⟩).map Prod.fst
            = jsKeyOrder ["Mileage"] (matrixTermHeaders rows)
        ∧ ((parseMatrixToFlat rows).sampleRows.get ⟨k, hk⟩).head?
            = some ("Mileage", normalizeCell (((matrixMileageRows rows).getD k []).headD ""))
        ∧ ((matrixTermHeaders rows).Nodup →
            ((parseMatrixToFlat rows).sampleRows.get ⟨k, hk⟩).map Prod.fst
                = "Mileage" :: matrixTermHeaders rows
            ∧ ((parseMatrixToFlat rows).sampleRows.get ⟨k, hk⟩).length
                = (matrixTermHeaders rows).length + 1) := by
  refine ⟨rfl, ?_, ?_⟩
  · simp [parseMatrixToFlat, List.length_take, Nat.min_comm]
  · intro k hk
    have hk5 : k < ((matrixMileageRows rows).take 5).length := by
      simpa [parseMatrixToFlat] using hk
    have hkN : k < (matrixMileageRows rows).length := by
      simp [List.length_take] at hk5
      omega
    have hfreshM : ∀ t ∈ matrixTermHeaders rows, t ≠ "Mileage" := by
      intro t ht
      have ht' : t ∈ ((rows.getD (matrixTermIndex rows) []).map normalizeCell).filter
          termPatternTest := ht
      exact termHeader_ne_mileage t (List.of_mem_filter ht')
    have hget : ((parseMatrixToFlat rows).sampleRows.get ⟨k, hk⟩)
        = (matrixTermHeaders rows).foldl (fun acc term =>
            objSet acc term (normalizeCell (((matrixMileageRows rows).get ⟨k, hkN⟩).getD
              ((rows.getD (matrixTermIndex rows) []).findIdx
                (fun c => normalizeCell c = term)) "")))
          [("Mileage", normalizeCell (((matrixMileageRows rows).get ⟨k, hkN⟩).headD ""))] := by
      simp [parseMatrixToFlat, List.get_eq_getElem, List.getElem_map, List.getElem_take]
    rw [hget]
    refine ⟨?_, ?_, ?_⟩
    · rw [foldl_objSet_map_fst]
      rfl
    · rw [foldl_objSet_head _ _ _ _ _ hfreshM, List.head?_cons]
      rw [List.getD_eq_getElem?_getD, List.getElem?_eq_getElem hkN]
      simp [List.get_eq_getElem]
    · intro hnd
      have hfresh0 : ∀ t ∈ matrixTermHeaders rows,
          t ∉ ([("Mileage",
              normalizeCell (((matrixMileageRows rows).get ⟨k, hkN⟩).headD ""))].map
            Prod.fst) := by
        intro t ht hmem
        exact hfreshM t ht (by simpa using hmem)
      rw [foldl_objSet_fresh _ _ _ hnd hfresh0]
      constructor
      · simp [Function.comp_def]
      · simp

/-- Witness for C3 (amended): Scenario B's table is matrix-shaped and the
amended theorem applies to it, giving exactly min 1 5 = 1 sample row. -/
theorem C3_matrix_transposer_amended_witness :
    (detectMatrixRatebook scenarioBRows).isMatrix = true
    ∧ (parseMatrixToFlat scenarioBRows).sampleRows.length
        = min (matrixMileageRows scenarioBRows).length 5 :=
  ⟨by decide, (C3_matrix_transposer_amended scenarioBRows (by decide)).2.1⟩

/-- C6: in the row loop of importGenericRatebook, a row whose capCode-mapped
value is empty or missing is counted as an error row, records an error message,
produces no RateRecord, and processing continues with the remaining rows; a row
with a capCode is never rejected: it always yields a Rate in which a
missing/unparsable term becomes 36, a missing/unparsable annualMileage becomes
10000 and a missing/unparsable totalRental becomes 0. -/
theorem C6_row_error_handling (importId : Nat) (providerCode contractType : String)
    (cm : List (String × Option DatabaseFieldKey)) (i k : Nat) (row : Row)
    (rest : List Row) (acc : RowAcc) :
    (jsTrim ((extractValue row .capCode cm).getD "") = "" →
        processRows importId providerCode contractType cm i k (row :: rest) acc
          = processRows importId providerCode contractType cm i (k + 1) rest
              { acc with
                errorRows := acc.errorRows + 1,
                errors := acc.errors ++
                  ["Row " ++ toString (i + k + 2) ++ ": Missing CAP Code"] })
    ∧ (jsTrim ((extractValue row .capCode cm).getD "") ≠ "" →
        (processRows importId providerCode contractType cm i k (row :: rest) acc
          = processRows importId providerCode contractType cm i (k + 1) rest
              { acc with
                rates := acc.rates ++ [buildRate importId providerCode contractType cm row],
                successRows := acc.successRows + 1,
                capCodes := setAdd acc.capCodes (jsTrim ((extractValue row .capCode cm).getD "")) })
        ∧ (parseInt2 (extractValue row .term cm) = none →
            (buildRate importId providerCode contractType cm row).term = 36)
        ∧ (parseInt2 (extractValue row .annualMileage cm) = none →
            (buildRate importId providerCode contractType cm row).annualMileage = 10000)
        ∧ (toPence (extractValue row .totalRental cm) = none →
            (buildRate importId providerCode contractType cm row).totalRental = 0)) := by
  constructor
  · intro hcap
    simp only [processRows, hcap]
    rfl
  · intro hcap
    refine ⟨?_, ?_, ?_, ?_⟩
    · simp only [processRows, if_neg hcap]
    · intro hterm; simp [buildRate, hterm, orDefaultInt]
    · intro hmil; simp [buildRate, hmil, orDefaultInt]
    · intro hrent; simp [buildRate, hrent, orDefaultInt]

/-- Witness for C6: on the two demo rows, the empty-CAP row is recorded as error
row 3 without a rate, and the good row — whose term and annualMileage columns are
unmapped and whose rental is present — gets term 36 and annualMileage 10000. -/
theorem C6_row_error_handling_witness :
    (processRows 1 "lex" "CH" demoOpts.columnMappings 0 1
        ([[("CAP", ""), ("RENT", "5")]] : List Row) ⟨[], 1, 0, ["ABC1"], []⟩
      = processRows 1 "lex" "CH" demoOpts.columnMappings 0 2 []
          ⟨[], 1, 1, ["ABC1"], ["Row 3: Missing CAP Code"]⟩)
    ∧ ((processRows 1 "lex" "CH" demoOpts.columnMappings 0 0
          ([[("CAP", "ABC1"), ("RENT", "100")]] : List Row) ⟨[], 0, 0, [], []⟩
        = processRows 1 "lex" "CH" demoOpts.columnMappings 0 1 []
            ⟨[buildRate 1 "lex" "CH" demoOpts.columnMappings [("CAP", "ABC1"), ("RENT", "100")]],
             1, 0, ["ABC1"], []⟩)
      ∧ (buildRate 1 "lex" "CH" demoOpts.columnMappings
          [("CAP", "ABC1"), ("RENT", "100")]).term = 36
      ∧ (buildRate 1 "lex" "CH" demoOpts.columnMappings
          [("CAP", "ABC1"), ("RENT", "100")]).annualMileage = 10000) := by
  refine ⟨?_, ?_, ?_, ?_⟩
  · have h := (C6_row_error_handling 1 "lex" "CH" demoOpts.columnMappings 0 1
      [("CAP", ""), ("RENT", "5")] [] ⟨[], 1, 0, ["ABC1"], []⟩).1 (by decide)
    simpa using h
  · have h := ((C6_row_error_handling 1 "lex" "CH" demoOpts.columnMappings 0 0
      [("CAP", "ABC1"), ("RENT", "100")] [] ⟨[], 0, 0, [], []⟩).2 (by decide)).1
    simpa using h
  · exact ((C6_row_error_handling 1 "lex" "CH" demoOpts.columnMappings 0 0
      [("CAP", "ABC1"), ("RENT", "100")] [] ⟨[], 0, 0, [], []⟩).2 (by decide)).2.1 (by decide)
  · exact ((C6_row_error_handling 1 "lex" "CH" demoOpts.columnMappings 0 0
      [("CAP", "ABC1"), ("RENT", "100")] [] ⟨[], 0, 0, [], []⟩).2 (by decide)).2.2.1 (by decide)

theorem detectScan_eq (l : List (List String)) : ∀ (i : Nat) (t l0 : Option Nat),
    detectScan l i t l0
      = ((lastIdxFrom termRowPred l i).or t, (lastIdxFrom labelRowPred l i).or l0) := by
  induction l with
  | nil => intro i t l0; simp [detectScan, lastIdxFrom]
  | cons row rest ih =>
      intro i t l0
      show detectScan rest (i + 1) _ _ = _
      rw [ih]
      simp only [lastIdxFrom, Option.or_assoc]
      cases htp : termRowPred row <;> cases hlp : labelRowPred row <;> simp [htp, hlp]

theorem lastIdxFrom_none (p : List String → Bool) (l : List (List String)) : ∀ (i : Nat),
    lastIdxFrom p l i = none ↔ ∀ row ∈ l, p row = false := by
  induction l with
  | nil => intro i; simp [lastIdxFrom]
  | cons row rest ih =>
      intro i
      simp only [lastIdxFrom]
      constructor
      · intro h
        cases hrec : lastIdxFrom p rest (i + 1) with
        | some m => rw [hrec, Option.or_some] at h; exact absurd h (by simp)
        | none =>
            rw [hrec, Option.none_or] at h
            cases hp : p row with
            | true => rw [hp] at h; exact absurd h (by simp)
            | false =>
                intro r hr
                rcases List.mem_cons.1 hr with rfl | hr2
                · exact hp
                · exact (ih (i + 1)).1 hrec r hr2
      · intro hall
        have h1 : lastIdxFrom p rest (i + 1) = none :=
          (ih (i + 1)).2 (fun r hr => hall r (List.mem_cons_of_mem _ hr))
        have hp : p row = false := hall row (List.mem_cons_self _ _)
        rw [h1, Option.none_or, hp]
        simp

theorem lastIdxFrom_some (p : List String → Bool) (l : List (List String)) :
    ∀ (i m : Nat), lastIdxFrom p l i = some m →
      i ≤ m
      ∧ (∃ row, l.get? (m - i) = some row ∧ p row = true)
      ∧ ∀ j row2, m - i < j → l.get? j = some row2 → p row2 = false := by
  induction l with
  | nil => intro i m h; exact absurd h (by simp [lastIdxFrom])
  | cons row rest ih =>
      intro i m h
      simp only [lastIdxFrom] at h
      cases hrec : lastIdxFrom p rest (i + 1) with
      | some m2 =>
          rw [hrec, Option.or_some] at h
          obtain rfl : m2 = m := by exact Option.some.inj h
          obtain ⟨hle, ⟨row2, hget, hp⟩, hafter⟩ := ih (i + 1) m2 hrec
          have hmi : m2 - i = (m2 - (i + 1)) + 1 := by omega
          refine ⟨by omega, ⟨row2, ?_, hp⟩, ?_⟩
          · rw [hmi]; simpa using hget
          · intro j row3 hj hget3
            match j, hj with
            | j + 1, hj =>
                exact hafter j row3 (by omega) (by simpa using hget3)
      | none =>
          rw [hrec, Option.none_or] at h
          cases hp : p row with
          | false => rw [hp] at h; exact absurd h (by simp)
          | true =>
              rw [hp] at h
              simp only [if_true] at h
              obtain rfl : i = m := by exact Option.some.inj h
              refine ⟨le_refl i, ⟨row, by simp, hp⟩, ?_⟩
              intro j row2 hj hget2
              match j, hj with
              | j + 1, _ =>
                  have hmem : row2 ∈ rest := by
                    have := hget2
                    simp only [List.get?_cons_succ] at this
                    exact List.get?_mem this
                  exact (lastIdxFrom_none p rest (i + 1)).1 hrec row2 hmem

theorem lastIdxFrom_isSome_eq_any (p : List String → Bool) (l : List (List String)) :
    (lastIdxFrom p l 0).isSome = l.any p := by
  cases h : lastIdxFrom p l 0 with
  | none =>
      have := (lastIdxFrom_none p l 0).1 h
      simp only [Option.isSome_none]
      symm
      simp only [List.any_eq_false]
      intro r hr
      simp [this r hr]
  | some m =>
      obtain ⟨_, ⟨row, hget, hp⟩, _⟩ := lastIdxFrom_some p l 0 m h
      simp only [Option.isSome_some]
      symm
      simp only [List.any_eq_true]
      exact ⟨row, List.get?_mem hget, hp⟩

theorem detectMatrix_components (rows : List (List String)) :
    (detectMatrixRatebook rows).termRowIndex = lastIdxFrom termRowPred (rows.take 30) 0
    ∧ (detectMatrixRatebook rows).labelRowIndex = lastIdxFrom labelRowPred (rows.take 30) 0
    ∧ (detectMatrixRatebook rows).isMatrix
        = ((rows.take 30).any termRowPred && (rows.take 30).any labelRowPred) := by
  unfold detectMatrixRatebook
  rw [detectScan_eq]
  refine ⟨by simp, by simp, ?_⟩
  simp [lastIdxFrom_isSome_eq_any]

/-- C4: detectMatrixRatebook classifies a RawTable as matrix-shaped exactly when,
within the first 30 rows, some row has at least 3 cells matching the deposit+term
pattern and some row's concatenated uppercased text contains a matrix-marker
phrase; the reported term row / label row is in each case the last (highest-index)
qualifying row of the 30-row window. -/
theorem C4_matrix_detection (rows : List (List String)) :
    ((detectMatrixRatebook rows).isMatrix
        = ((rows.take 30).any termRowPred && (rows.take 30).any labelRowPred))
    ∧ ((detectMatrixRatebook rows).termRowIndex = none
        ↔ ∀ row ∈ rows.take 30, termRowPred row = false)
    ∧ (∀ m, (detectMatrixRatebook rows).termRowIndex = some m →
        (∃ row, (rows.take 30).get? m = some row ∧ termRowPred row = true)
        ∧ ∀ j row2, m < j → (rows.take 30).get? j = some row2 → termRowPred row2 = false)
    ∧ ((detectMatrixRatebook rows).labelRowIndex = none
        ↔ ∀ row ∈ rows.take 30, labelRowPred row = false)
    ∧ (∀ m, (detectMatrixRatebook rows).labelRowIndex = some m →
        (∃ row, (rows.take 30).get? m = some row ∧ labelRowPred row = true)
        ∧ ∀ j row2, m < j → (rows.take 30).get? j = some row2 → labelRowPred row2 = false) := by
  obtain ⟨ht, hl, hm⟩ := detectMatrix_components rows
  refine ⟨hm, ?_, ?_, ?_, ?_⟩
  · rw [ht]; exact lastIdxFrom_none termRowPred (rows.take 30) 0
  · intro m hsome
    rw [ht] at hsome
    obtain ⟨_, hex, hafter⟩ := lastIdxFrom_some termRowPred (rows.take 30) 0 m hsome
    exact ⟨by simpa using hex, by simpa using hafter⟩
  · rw [hl]; exact lastIdxFrom_none labelRowPred (rows.take 30) 0
  · intro m hsome
    rw [hl] at hsome
    obtain ⟨_, hex, hafter⟩ := lastIdxFrom_some labelRowPred (rows.take 30) 0 m hsome
    exact ⟨by simpa using hex, by simpa using hafter⟩

/-- Witness for C4: on Scenario B's rows the classification is matrix, the term
row is the last (and only) qualifying row at index 2, and the label row at
index 1 carries both qualifying properties concretely. -/
theorem C4_matrix_detection_witness :
    ((detectMatrixRatebook scenarioBRows).termRowIndex = some 2 →
      (∃ row, (scenarioBRows.take 30).get? 2 = some row ∧ termRowPred row = true)
      ∧ ∀ j row2, 2 < j → (scenarioBRows.take 30).get? j = some row2
          → termRowPred row2 = false) ∧
    (detectMatrixRatebook scenarioBRows).termRowIndex = some 2 ∧
    (detectMatrixRatebook scenarioBRows).labelRowIndex = some 1 ∧
    (detectMatrixRatebook scenarioBRows).isMatrix = true := by
  refine ⟨(C4_matrix_detection scenarioBRows).2.2.1 2, by decide, by decide, by decide⟩

theorem maxCounts_cons (r : List String) (rest : List (List String)) :
    maxCounts (r :: rest) = max (countFilledCells r) (maxCounts rest) := rfl

theorem headerLoop_general (l : List (List String)) : ∀ (i m idx : Nat),
    headerLoop l i m idx =
      if maxCounts l ≤ m then (m, idx)
      else (maxCounts l, i + List.findIdx (fun r => countFilledCells r = maxCounts l) l) := by
  induction l with
  | nil => intro i m idx; simp [headerLoop, maxCounts]
  | cons r rest ih =>
      intro i m idx
      rw [maxCounts_cons]
      by_cases hgt : countFilledCells r > m
      · rw [headerLoop, if_pos hgt, ih]
        by_cases h2 : maxCounts rest ≤ countFilledCells r
        · rw [if_pos h2]
          have hmx : max (countFilledCells r) (maxCounts rest) = countFilledCells r :=
            Nat.max_eq_left h2
          rw [hmx, if_neg (by omega)]
          rw [List.findIdx_cons]
          simp
        · rw [if_neg h2]
          have hmx : max (countFilledCells r) (maxCounts rest) = maxCounts rest :=
            Nat.max_eq_right (by omega)
          rw [hmx, if_neg (by omega)]
          rw [List.findIdx_cons]
          have hne : (countFilledCells r = maxCounts rest) = False := by
            simp; omega
          simp only [hne, decide_False, Bool.cond_false]
          refine Prod.ext rfl ?_
          simp; omega
      · rw [headerLoop, if_neg hgt, ih]
        by_cases h2 : maxCounts rest ≤ m
        · rw [if_pos h2, if_pos (by omega)]
        · rw [if_neg h2]
          have hmx : max (countFilledCells r) (maxCounts rest) = maxCounts rest :=
            Nat.max_eq_right (by omega)
          rw [hmx, if_neg (by omega)]
          rw [List.findIdx_cons]
          have hne : (countFilledCells r = maxCounts rest) = False := by
            simp; omega
          simp only [hne, decide_False, Bool.cond_false]
          refine Prod.ext rfl ?_
          simp; omega

/-- C5: flat header detection returns the index of the (earliest) row attaining
the maximum filled-cell count among the first 15 rows when that maximum is at
least 5; otherwise the first row among the first 10 whose concatenated
uppercased text contains a header keyword; otherwise it falls back to the
max-filled-cell row — stated as equality with the specification-side definition
built from the claim's words. On Scenario A's rows it selects row index 1 and
the extracted headers start with TERM, ANNUAL_MILEAGE. -/
theorem C5_flat_header_detection :
    (∀ rawData, findHeaderRowIndex rawData = specFindHeaderRowIndex rawData)
    ∧ findHeaderRowIndex scenarioARows = 1
    ∧ (extractHeadersFlat scenarioARows).take 2 = ["TERM", "ANNUAL_MILEAGE"] := by
  refine ⟨?_, by decide, by decide⟩
  intro rawData
  unfold findHeaderRowIndex specFindHeaderRowIndex specMaxFilled
  rw [headerLoop_general]
  by_cases h0 : maxCounts (rawData.take 15) ≤ 0
  · rw [if_pos h0]
    have hm0 : maxCounts (rawData.take 15) = 0 := by omega
    rw [hm0]
    have hbest : List.findIdx (fun row => countFilledCells row = 0) (rawData.take 15) = 0 := by
      cases hw : rawData.take 15 with
      | nil => simp
      | cons r rest =>
          have h1 : maxCounts (r :: rest) = 0 := by rw [← hw]; exact hm0
          rw [maxCounts_cons] at h1
          have h2 : countFilledCells r = 0 := (Nat.max_eq_zero_iff.1 h1).1
          rw [List.findIdx_cons]
          simp [h2]
    rw [hbest]
  · rw [if_neg h0]
    simp only [Nat.zero_add]

/-! ### Importer bookkeeping lemmas -/

theorem setCounters_map_proj {γ : Type} (g : ImportBatchRec → γ)
    (hg : ∀ (b : ImportBatchRec) (w : ProgressWrite),
      g { b with totalRows := w.totalRows, successRows := w.successRows,
                 errorRows := w.errorRows, uniqueCapCodes := w.uniqueCapCodes } = g b)
    (importId : Nat) (w : ProgressWrite) (l : List ImportBatchRec) :
    (setCounters importId w l).map g = l.map g := by
  unfold setCounters
  rw [List.map_map]
  apply List.map_congr_left
  intro b _
  by_cases h : b.id = importId
  · simp only [Function.comp, if_pos h, hg]
  · simp only [Function.comp, if_neg h]

theorem setParseFailed_map_proj {γ : Type} (g : ImportBatchRec → γ)
    (hg : ∀ (b : ImportBatchRec) (msg : String),
      g { b with status := "failed", errorLog := some [msg] } = g b)
    (importId : Nat) (msg : String) (l : List ImportBatchRec) :
    (setParseFailed importId msg l).map g = l.map g := by
  unfold setParseFailed
  rw [List.map_map]
  apply List.map_congr_left
  intro b _
  by_cases h : b.id = importId
  · simp only [Function.comp, if_pos h, hg]
  · simp only [Function.comp, if_neg h]

theorem finalizeImport_map_proj {γ : Type} (g : ImportBatchRec → γ)
    (hg : ∀ (b : ImportBatchRec) (status : String) (w : ProgressWrite)
        (el : Option (List String)) (ca : Option Nat),
      g { b with status := status, totalRows := w.totalRows, successRows := w.successRows,
                 errorRows := w.errorRows, uniqueCapCodes := w.uniqueCapCodes,
                 errorLog := el, completedAt := ca } = g b)
    (importId : Nat) (status : String) (w : ProgressWrite) (errors : List String)
    (now : Nat) (l : List ImportBatchRec) :
    (finalizeImport importId status w errors now l).map g = l.map g := by
  unfold finalizeImport
  rw [List.map_map]
  apply List.map_congr_left
  intro b _
  by_cases h : b.id = importId
  · simp only [Function.comp, if_pos h, hg]
  · simp only [Function.comp, if_neg h]

theorem countP_eq_of_map_eq {β γ : Type} (g : β → γ) (q : γ → Bool)
    {l1 l2 : List β} (h : l1.map g = l2.map g) :
    l1.countP (fun b => q (g b)) = l2.countP (fun b => q (g b)) := by
  have h1 := List.countP_map q g l1
  have h2 := List.countP_map q g l2
  have : List.countP q (l1.map g) = List.countP q (l2.map g) := by rw [h]
  rw [h1, h2] at this
  exact this

theorem exists_of_map_eq {β γ : Type} (g : β → γ) (q : γ → Bool)
    {l1 l2 : List β} (h : l1.map g = l2.map g)
    (hex : ∃ b ∈ l2, q (g b) = true) : ∃ b ∈ l1, q (g b) = true := by
  obtain ⟨b, hb, hq⟩ := hex
  have : g b ∈ l1.map g := by rw [h]; exact List.mem_map_of_mem g hb
  obtain ⟨b1, hb1, hgb⟩ := List.mem_map.1 this
  exact ⟨b1, hb1, by rw [hgb]; exact hq⟩

theorem setAdd_length_le (l : List String) (c : String) :
    l.length ≤ (setAdd l c).length := by
  unfold setAdd
  split
  · exact le_refl _
  · simp

theorem processRows_acc (importId : Nat) (pc ct : String)
    (cm : List (String × Option DatabaseFieldKey)) (i : Nat) :
    ∀ (chunk : List Row) (k : Nat) (acc : RowAcc),
      ∃ new : List Rate,
        (processRows importId pc ct cm i k chunk acc).rates = acc.rates ++ new
        ∧ (processRows importId pc ct cm i k chunk acc).successRows
            = acc.successRows + new.length
        ∧ acc.errorRows ≤ (processRows importId pc ct cm i k chunk acc).errorRows
        ∧ acc.capCodes.length ≤ (processRows importId pc ct cm i k chunk acc).capCodes.length := by
  intro chunk
  induction chunk with
  | nil =>
      intro k acc
      exact ⟨[], by simp [processRows], by simp [processRows], le_refl _, le_refl _⟩
  | cons row rest ih =>
      intro k acc
      by_cases hcap : jsTrim ((extractValue row .capCode cm).getD "") = ""
      · rw [processRows, if_pos hcap]
        obtain ⟨new, h1, h2, h3, h4⟩ := ih (k + 1)
          { acc with errorRows := acc.errorRows + 1,
                     errors := acc.errors ++
                       ["Row " ++ toString (i + k + 2) ++ ": Missing CAP Code"] }
        exact ⟨new, h1, h2, le_trans (Nat.le_succ _) h3, h4⟩
      · rw [processRows, if_neg hcap]
        obtain ⟨new, h1, h2, h3, h4⟩ := ih (k + 1)
          { acc with
            rates := acc.rates ++ [buildRate importId pc ct cm row],
            successRows := acc.successRows + 1,
            capCodes := setAdd acc.capCodes (jsTrim ((extractValue row .capCode cm).getD "")) }
        refine ⟨buildRate importId pc ct cm row :: new, ?_, ?_, h3, ?_⟩
        · rw [h1]; simp
        · rw [h2]; simp; omega
        · exact le_trans (setAdd_length_le _ _) h4

theorem subBatchOutcome_imports (f : Nat → Bool) (i : Nat) (db : DBState) (pr : RowAcc) :
    (subBatchOutcome f i db pr).1.imports = db.imports := by
  unfold subBatchOutcome
  split_ifs <;> rfl

theorem subBatchOutcome_succ_ge (f : Nat → Bool) (i : Nat) (db : DBState) (pr : RowAcc)
    (s0 : Int) (hs : pr.successRows = s0 + pr.rates.length) :
    s0 ≤ (subBatchOutcome f i db pr).2.1 := by
  unfold subBatchOutcome
  split_ifs <;> simp <;> omega

theorem subBatchOutcome_err_ge (f : Nat → Bool) (i : Nat) (db : DBState) (pr : RowAcc)
    (e0 : Nat) (he : e0 ≤ pr.errorRows) :
    e0 ≤ (subBatchOutcome f i db pr).2.2.1 := by
  unfold subBatchOutcome
  split_ifs <;> simp <;> omega

theorem runBatches_map_proj {γ : Type} (g : ImportBatchRec → γ)
    (hg : ∀ (b : ImportBatchRec) (w : ProgressWrite),
      g { b with totalRows := w.totalRows, successRows := w.successRows,
                 errorRows := w.errorRows, uniqueCapCodes := w.uniqueCapCodes } = g b)
    (importId : Nat) (pc ct : String) (cm : List (String × Option DatabaseFieldKey))
    (f : Nat → Bool) (T : Nat) :
    ∀ (fuel : Nat) (rec : List Row) (i : Nat) (s : LoopState),
      ((runBatches importId pc ct cm f T fuel rec i s).db.imports).map g
        = (s.db.imports).map g := by
  intro fuel
  induction fuel with
  | zero => intro rec i s; cases rec <;> rfl
  | succ fuel ih =>
      intro rec i s
      cases rec with
      | nil => rfl
      | cons r rs =>
          rw [runBatches]
          rw [ih]
          simp only [setCounters_map_proj g hg, subBatchOutcome_imports]

theorem progressLe_refl (w : ProgressWrite) : progressLe w w :=
  ⟨le_refl _, le_refl _, le_refl _, le_refl _⟩

theorem progressLe_trans {w1 w2 w3 : ProgressWrite}
    (h1 : progressLe w1 w2) (h2 : progressLe w2 w3) : progressLe w1 w3 :=
  ⟨le_trans h1.1 h2.1, le_trans h1.2.1 h2.2.1, le_trans h1.2.2.1 h2.2.2.1,
   le_trans h1.2.2.2 h2.2.2.2⟩

theorem runBatches_chain (importId : Nat) (pc ct : String)
    (cm : List (String × Option DatabaseFieldKey)) (f : Nat → Bool) (T : Nat) :
    ∀ (fuel : Nat) (rec : List Row) (i : Nat) (s : LoopState),
      List.Chain' progressLe s.writes →
      (∀ w ∈ s.writes.getLast?,
        progressLe w ⟨T, s.successRows, s.errorRows, s.capCodes.length⟩) →
      List.Chain' progressLe (runBatches importId pc ct cm f T fuel rec i s).writes
      ∧ ∀ w ∈ (runBatches importId pc ct cm f T fuel rec i s).writes.getLast?,
          progressLe w
            ⟨T, (runBatches importId pc ct cm f T fuel rec i s).successRows,
                (runBatches importId pc ct cm f T fuel rec i s).errorRows,
                (runBatches importId pc ct cm f T fuel rec i s).capCodes.length⟩ := by
  intro fuel
  induction fuel with
  | zero =>
      intro rec i s hch hlast
      cases rec with
      | nil => exact ⟨hch, hlast⟩
      | cons r rs => exact ⟨hch, hlast⟩
  | succ fuel ih =>
      intro rec i s hch hlast
      cases rec with
      | nil => exact ⟨hch, hlast⟩
      | cons r rs =>
          rw [runBatches]
          obtain ⟨new, hr, hs, he, hc⟩ := processRows_acc importId pc ct cm i
            ((r :: rs).take 100) 0 ⟨[], s.successRows, s.errorRows, s.capCodes, s.errors⟩
          simp only at hr hs he hc
          set pr := processRows importId pc ct cm i 0 ((r :: rs).take 100)
            ⟨[], s.successRows, s.errorRows, s.capCodes, s.errors⟩ with hpr
          have hlen : (pr.rates.length : Int) = new.length := by
            rw [hr]; simp
          have hstep : progressLe ⟨T, s.successRows, s.errorRows, s.capCodes.length⟩
              ⟨T, (subBatchOutcome f i s.db pr).2.1, (subBatchOutcome f i s.db pr).2.2.1,
                  pr.capCodes.length⟩ := by
            refine ⟨le_refl _, ?_, ?_, hc⟩
            · exact subBatchOutcome_succ_ge f i s.db pr s.successRows (by omega)
            · exact subBatchOutcome_err_ge f i s.db pr s.errorRows he
          apply ih
          · rw [List.chain'_append]
            refine ⟨hch, List.chain'_singleton _, ?_⟩
            intro x hx y hy
            simp only [List.head?_cons, Option.mem_def, Option.some.injEq] at hy
            subst hy
            exact progressLe_trans (hlast x hx) hstep
          · intro w hw
            rw [List.getLast?_concat] at hw
            simp only [Option.mem_def, Option.some.injEq] at hw
            subst hw
            exact progressLe_refl _

/-- C8: across one run of importGenericRatebook, the sequence of counter tuples
written to the ImportBatch record (totalRows, successRows, errorRows,
uniqueCapCodes) is componentwise non-decreasing — the persisted counters never
decrease, including when a failed bulk insert counts its whole sub-batch as
errors and rolls the in-memory success counter back before the next progress
write. -/
theorem C8_progress_writes_monotone (st : DBState) (opts : ImportOptions)
    (parsed : Except String (List Row)) (f : Nat → Bool) (sc : Bool) :
    List.Chain' progressLe (importGenericRatebook st opts parsed f sc).2.2 := by
  unfold importGenericRatebook
  cases hd : dupCheck st (generateFileHash opts.fileContent) opts.providerCode with
  | some prior => simp only [hd]; exact List.chain'_nil
  | none =>
      simp only [hd]
      cases parsed with
      | error msg => exact List.chain'_nil
      | ok records =>
          show List.Chain' progressLe (_ ++ [_])
          rw [List.chain'_append]
          refine ⟨(runBatches_chain _ _ _ _ _ _ _ _ _ _ List.chain'_nil ?_).1,
            List.chain'_singleton _, ?_⟩
          · intro w hw; simp at hw
          · intro x hx y hy
            simp only [List.head?_cons, Option.mem_def, Option.some.injEq] at hy
            subst hy
            exact (runBatches_chain _ _ _ _ _ _ _ _ _ _ List.chain'_nil
              (by intro w hw; simp at hw)).2 x hx

theorem getOrCreateProvider_imports (st : DBState) (pc : String) :
    (getOrCreateProvider st pc).imports = st.imports := by
  unfold getOrCreateProvider
  split <;> rfl

theorem getOrCreateProvider_nextImportId (st : DBState) (pc : String) :
    (getOrCreateProvider st pc).nextImportId = st.nextImportId := by
  unfold getOrCreateProvider
  split <;> rfl

theorem latestCount_eq_of_map_latKey {l1 l2 : List ImportBatchRec}
    (h : l1.map latKey = l2.map latKey) (pc ct : String) :
    l1.countP (fun b => decide (b.providerCode = pc) && decide (b.contractType = ct) && b.isLatest)
      = l2.countP (fun b => decide (b.providerCode = pc) && decide (b.contractType = ct) && b.isLatest) :=
  countP_eq_of_map_eq latKey
    (fun k => decide (k.1 = pc) && decide (k.2.1 = ct) && k.2.2) h

theorem demoteLatest_countP_self (pc ct : String) (l : List ImportBatchRec) :
    (demoteLatest pc ct l).countP
      (fun b => decide (b.providerCode = pc) && decide (b.contractType = ct) && b.isLatest) = 0 := by
  rw [List.countP_eq_zero]
  intro a ha
  obtain ⟨b, _, rfl⟩ := List.mem_map.1 ha
  by_cases hcond : b.providerCode = pc ∧ b.contractType = ct ∧ b.isLatest
  · simp [hcond]
  · rw [if_neg hcond]
    by_cases h1 : b.providerCode = pc
    · by_cases h2 : b.contractType = ct
      · have h3 : b.isLatest = false := by
          cases h4 : b.isLatest
          · rfl
          · exact absurd ⟨h1, h2, by rw [h4]⟩ hcond
        simp [h3]
      · simp [h2]
    · simp [h1]

theorem demoteLatest_countP_other (pc ct pc2 ct2 : String) (l : List ImportBatchRec)
    (h : ¬(pc2 = pc ∧ ct2 = ct)) :
    (demoteLatest pc ct l).countP
      (fun b => decide (b.providerCode = pc2) && decide (b.contractType = ct2) && b.isLatest)
      = l.countP
          (fun b => decide (b.providerCode = pc2) && decide (b.contractType = ct2) && b.isLatest) := by
  unfold demoteLatest
  rw [List.countP_map]
  apply List.countP_congr
  intro b _
  by_cases hcond : b.providerCode = pc ∧ b.contractType = ct ∧ b.isLatest
  · have hb : ¬(b.providerCode = pc2 ∧ b.contractType = ct2) := by
      intro hb2
      exact h ⟨by rw [← hb2.1, hcond.1], by rw [← hb2.2, hcond.2.1]⟩
    simp only [Function.comp, if_pos hcond]
    by_cases h1 : b.providerCode = pc2
    · have h2 : ¬ b.contractType = ct2 := fun h2 => hb ⟨h1, h2⟩
      simp [h1, h2]
    · simp [h1]
  · simp only [Function.comp, if_neg hcond]

theorem latest_after_insert (pc ct pc2 ct2 : String) (l0 : List ImportBatchRec)
    (b0 : ImportBatchRec)
    (hb : b0.providerCode = pc ∧ b0.contractType = ct ∧ b0.isLatest = true) :
    (demoteLatest pc ct l0 ++ [b0]).countP
      (fun b => decide (b.providerCode = pc2) && decide (b.contractType = ct2) && b.isLatest)
      = (if pc2 = pc ∧ ct2 = ct then 1
         else l0.countP
           (fun b => decide (b.providerCode = pc2) && decide (b.contractType = ct2) && b.isLatest)) := by
  rw [List.countP_append]
  by_cases hk : pc2 = pc ∧ ct2 = ct
  · obtain ⟨rfl, rfl⟩ := hk
    rw [demoteLatest_countP_self, if_pos ⟨rfl, rfl⟩]
    simp [List.countP_cons, hb.1, hb.2.1, hb.2.2]
  · rw [demoteLatest_countP_other pc ct pc2 ct2 l0 hk, if_neg hk]
    have hb0 : (decide (b0.providerCode = pc2) && decide (b0.contractType = ct2) && b0.isLatest)
        = false := by
      by_cases h1 : b0.providerCode = pc2
      · have h2 : ¬ b0.contractType = ct2 := by
          intro h2
          exact hk ⟨by rw [← h1, hb.1], by rw [← h2, hb.2.1]⟩
        simp [h2]
      · simp [h1]
    simp [List.countP_cons, hb0]

/-- C2: every (sequential) run of importGenericRatebook preserves the invariant
that at most one ImportBatch is latest per (providerCode, contractType) key:
a run that proceeds past the duplicate check first demotes any currently-latest
batch for its key and only then inserts the new batch with isLatest true, so
afterwards exactly one batch is latest for that key, and no other key's count
changes. -/
theorem C2_single_latest_invariant (st : DBState) (opts : ImportOptions)
    (parsed : Except String (List Row)) (f : Nat → Bool) (sc : Bool)
    (hinv : atMostOneLatest st) :
    atMostOneLatest (importGenericRatebook st opts parsed f sc).1
    ∧ (dupCheck st (generateFileHash opts.fileContent) opts.providerCode = none →
        latestCount (importGenericRatebook st opts parsed f sc).1
          opts.providerCode opts.contractType = 1) := by
  unfold importGenericRatebook
  cases hd : dupCheck st (generateFileHash opts.fileContent) opts.providerCode with
  | some prior =>
      simp only [hd]
      exact ⟨hinv, fun hn => by cases hn⟩
  | none =>
      simp only [hd]
      cases parsed with
      | error msg =>
          constructor
          · intro pc2 ct2
            unfold latestCount
            simp only []
            rw [latestCount_eq_of_map_latKey
              (setParseFailed_map_proj latKey (fun b m => rfl) _ _ _) pc2 ct2]
            rw [latest_after_insert opts.providerCode opts.contractType pc2 ct2 _ _
              ⟨rfl, rfl, rfl⟩]
            split_ifs with hk
            · exact le_refl 1
            · rw [getOrCreateProvider_imports]
              exact hinv pc2 ct2
          · intro _
            unfold latestCount
            simp only []
            rw [latestCount_eq_of_map_latKey
              (setParseFailed_map_proj latKey (fun b m => rfl) _ _ _) _ _]
            rw [latest_after_insert opts.providerCode opts.contractType _ _ _ _
              ⟨rfl, rfl, rfl⟩]
            rw [if_pos ⟨rfl, rfl⟩]
      | ok records =>
          constructor
          · intro pc2 ct2
            unfold latestCount
            simp only []
            rw [latestCount_eq_of_map_latKey
              (finalizeImport_map_proj latKey (fun b st w el ca => rfl) _ _ _ _ _ _) pc2 ct2]
            rw [latestCount_eq_of_map_latKey
              (runBatches_map_proj latKey (fun b w => rfl) _ _ _ _ _ _ _ _ _ _) pc2 ct2]
            rw [latest_after_insert opts.providerCode opts.contractType pc2 ct2 _ _
              ⟨rfl, rfl, rfl⟩]
            split_ifs with hk
            · exact le_refl 1
            · rw [getOrCreateProvider_imports]
              exact hinv pc2 ct2
          · intro _
            unfold latestCount
            simp only []
            rw [latestCount_eq_of_map_latKey
              (finalizeImport_map_proj latKey (fun b st w el ca => rfl) _ _ _ _ _ _) _ _]
            rw [latestCount_eq_of_map_latKey
              (runBatches_map_proj latKey (fun b w => rfl) _ _ _ _ _ _ _ _ _ _) _ _]
            rw [latest_after_insert opts.providerCode opts.contractType _ _ _ _
              ⟨rfl, rfl, rfl⟩]
            rw [if_pos ⟨rfl, rfl⟩]

/-- Witness for C2: running the importer over a database already holding one
latest batch for the key preserves the invariant and leaves exactly one latest
batch for ("lex", "CH"). -/
theorem C2_single_latest_invariant_witness :
    atMostOneLatest (importGenericRatebook demoDb demoOpts (.ok demoRows) (fun _ => false) false).1
    ∧ latestCount (importGenericRatebook demoDb demoOpts (.ok demoRows) (fun _ => false) false).1
        "lex" "CH" = 1 := by
  have hinv : atMostOneLatest demoDb := by
    intro pc ct
    exact le_trans (List.countP_le_length _) (by rfl)
  have h := C2_single_latest_invariant demoDb demoOpts (.ok demoRows) (fun _ => false) false hinv
  exact ⟨h.1, h.2 (by decide)⟩

theorem half_lt_iff (t e : Nat) : ((t : ℚ) / 2 < (e : ℚ)) ↔ t < 2 * e := by
  rw [div_lt_iff₀ (by norm_num : (0 : ℚ) < 2)]
  norm_cast
  omega

theorem find?_id_of_map_idLatest {l1 l2 : List ImportBatchRec}
    (h : l1.map idLatest = l2.map idLatest) (N : Nat) :
    (l1.find? (fun b => decide (b.id = N))).map idLatest
      = (l2.find? (fun b => decide (b.id = N))).map idLatest := by
  have key : ∀ l : List ImportBatchRec,
      (l.find? (fun b => decide (b.id = N))).map idLatest
        = (l.map idLatest).find? (fun k => decide (k.1 = N)) := by
    intro l
    exact (@List.find?_map _ _ (fun k => decide (k.1 = N)) idLatest l).symm
  rw [key, key, h]

theorem find?_finalizeImport (importId N : Nat) (status : String) (w : ProgressWrite)
    (errors : List String) (now : Nat) (l : List ImportBatchRec) :
    (finalizeImport importId status w errors now l).find? (fun b => decide (b.id = N))
      = (l.find? (fun b => decide (b.id = N))).map
          (fun b => if b.id = importId then
              { b with status := status, totalRows := w.totalRows,
                       successRows := w.successRows, errorRows := w.errorRows,
                       uniqueCapCodes := w.uniqueCapCodes,
                       errorLog := if errors.length > 0 then some (errors.take 100) else none,
                       completedAt := some now }
            else b) := by
  unfold finalizeImport
  rw [List.find?_map]
  have hp : ((fun b : ImportBatchRec => decide (b.id = N)) ∘
      (fun b => if b.id = importId then
          { b with status := status, totalRows := w.totalRows,
                   successRows := w.successRows, errorRows := w.errorRows,
                   uniqueCapCodes := w.uniqueCapCodes,
                   errorLog := if errors.length > 0 then some (errors.take 100) else none,
                   completedAt := some now }
        else b)) = (fun b : ImportBatchRec => decide (b.id = N)) := by
    funext b
    by_cases hb : b.id = importId <;> simp [Function.comp, hb]
  rw [hp]

theorem find?_demote_none (pc ct : String) (l : List ImportBatchRec) (N : Nat)
    (h : ∀ b ∈ l, b.id < N) :
    (demoteLatest pc ct l).find? (fun b => decide (b.id = N)) = none := by
  rw [List.find?_eq_none]
  intro x hx
  obtain ⟨b, hb, rfl⟩ := List.mem_map.1 hx
  have hid : (if b.providerCode = pc ∧ b.contractType = ct ∧ b.isLatest then
      { b with isLatest := false } else b).id = b.id := by
    by_cases hc : b.providerCode = pc ∧ b.contractType = ct ∧ b.isLatest <;> simp [hc]
  simp only [hid, decide_eq_true_eq]
  have := h b hb
  omega

theorem okBranch_final (importId : Nat) (pc ct : String)
    (cm : List (String × Option DatabaseFieldKey)) (f : Nat → Bool)
    (T fuel : Nat) (rec : List Row) (i : Nat) (s : LoopState)
    (w : ProgressWrite) (errs : List String) (now : Nat) {bb : ImportBatchRec}
    (hfind : s.db.imports.find? (fun b => decide (b.id = importId)) = some bb)
    (hlat : bb.isLatest = true) :
    ∃ b, (finalizeImport importId
          (if T < 2 * (runBatches importId pc ct cm f T fuel rec i s).errorRows
           then "failed" else "completed") w errs now
          (runBatches importId pc ct cm f T fuel rec i s).db.imports).find?
          (fun b => decide (b.id = importId)) = some b
      ∧ b.isLatest = true
      ∧ (b.status = "failed" ↔ (T : ℚ) / 2
          < ((runBatches importId pc ct cm f T fuel rec i s).errorRows : ℚ))
      ∧ (b.status = "failed" ∨ b.status = "completed")
      ∧ (decide ((if T < 2 * (runBatches importId pc ct cm f T fuel rec i s).errorRows
                  then "failed" else "completed") = "completed") = true
          ↔ b.status = "completed") := by
  rw [find?_finalizeImport]
  have h4 := find?_id_of_map_idLatest
    (runBatches_map_proj idLatest (fun b w => rfl) importId pc ct cm f T fuel rec i s) importId
  rw [hfind] at h4
  cases hL4 : (runBatches importId pc ct cm f T fuel rec i s).db.imports.find?
      (fun b => decide (b.id = importId)) with
  | none => rw [hL4] at h4; exact absurd h4 (by simp)
  | some b4 =>
      rw [hL4] at h4
      have hpair : idLatest b4 = idLatest bb := by simpa using h4
      have hb4lat : b4.isLatest = true := by
        have h5 := congrArg Prod.snd hpair
        simp only [idLatest] at h5
        rw [h5, hlat]
      have hb4id : b4.id = importId := by
        have h6 := List.find?_some hL4
        simpa using h6
      refine ⟨_, rfl, ?_, ?_, ?_⟩
      · simp [hb4id, hb4lat]
      · by_cases hcond : T < 2 * (runBatches importId pc ct cm f T fuel rec i s).errorRows
        · simp [hb4id, hcond, half_lt_iff]
        · simp [hb4id, hcond, half_lt_iff]
      · by_cases hcond : T < 2 * (runBatches importId pc ct cm f T fuel rec i s).errorRows
        · simp [hb4id, hcond]
        · simp [hb4id, hcond]

/-- C7: when importGenericRatebook finalizes a non-duplicate, successfully
parsed import, the new batch's status is failed exactly when
errorRows > totalRows / 2 (real division, as in the source) and completed
otherwise, the returned success flag is true exactly when the status is
completed, and the batch's isLatest flag remains true regardless of the final
status. -/
theorem C7_finalize_status (st : DBState) (opts : ImportOptions) (records : List Row)
    (f : Nat → Bool) (sc : Bool) (hfresh : freshIds st)
    (hdup : dupCheck st (generateFileHash opts.fileContent) opts.providerCode = none) :
    ∃ b, (importGenericRatebook st opts (.ok records) f sc).1.imports.find?
          (fun b2 => decide (b2.id = st.nextImportId)) = some b
      ∧ b.isLatest = true
      ∧ (b.status = "failed" ↔
          ((importGenericRatebook st opts (.ok records) f sc).2.1.totalRows : ℚ) / 2
            < ((importGenericRatebook st opts (.ok records) f sc).2.1.errorRows : ℚ))
      ∧ (b.status = "failed" ∨ b.status = "completed")
      ∧ ((importGenericRatebook st opts (.ok records) f sc).2.1.success = true
          ↔ b.status = "completed") := by
  unfold importGenericRatebook
  simp only [hdup]
  rw [getOrCreateProvider_nextImportId]
  apply okBranch_final
  · show (demoteLatest opts.providerCode opts.contractType
        (getOrCreateProvider st opts.providerCode).imports ++ [_]).find? _ = some _
    rw [List.find?_append]
    rw [find?_demote_none opts.providerCode opts.contractType _ st.nextImportId
      (by rw [getOrCreateProvider_imports]; exact hfresh)]
    rw [Option.none_or]
    rw [List.find?_cons_of_pos _ (by simp [newImportBatch])]
  · rfl

/-- Witness for C7: a fresh import over a database holding one unrelated batch. -/
theorem C7_finalize_status_witness :
    ∃ b, (importGenericRatebook demoDb demoOpts (.ok demoRows) (fun _ => false) false).1.imports.find?
          (fun b2 => decide (b2.id = demoDb.nextImportId)) = some b
      ∧ b.isLatest = true
      ∧ (b.status = "failed" ↔
          ((importGenericRatebook demoDb demoOpts (.ok demoRows) (fun _ => false) false).2.1.totalRows : ℚ) / 2
            < ((importGenericRatebook demoDb demoOpts (.ok demoRows) (fun _ => false) false).2.1.errorRows : ℚ))
      ∧ (b.status = "failed" ∨ b.status = "completed")
      ∧ ((importGenericRatebook demoDb demoOpts (.ok demoRows) (fun _ => false) false).2.1.success = true
          ↔ b.status = "completed") := by
  have hfresh : freshIds demoDb := by
    intro b hb
    have hb2 : b = demoBatch := by simpa [demoDb] using hb
    rw [hb2]
    decide
  exact C7_finalize_status demoDb demoOpts demoRows (fun _ => false) false hfresh (by decide)

theorem run_rejects (st : DBState) (opts : ImportOptions)
    (parsed : Except String (List Row)) (f : Nat → Bool) (sc : Bool)
    (prior : ImportBatchRec)
    (hd : dupCheck st (generateFileHash opts.fileContent) opts.providerCode = some prior) :
    importGenericRatebook st opts parsed f sc
      = (st, { success := false, importId := none,
               batchId := generateBatchId opts.providerCode opts.contractType st.now,
               totalRows := 0, successRows := 0, errorRows := 0, uniqueCapCodes := 0,
               errors := ["Duplicate file detected. This ratebook was already imported on "
                 ++ toString prior.createdAt] }, []) := by
  unfold importGenericRatebook
  simp only [hd]

theorem run_leaves_dup_marker (st : DBState) (opts : ImportOptions)
    (parsed : Except String (List Row)) (f : Nat → Bool) (sc : Bool) :
    ∃ b ∈ (importGenericRatebook st opts parsed f sc).1.imports,
      (decide (b.fileHash = generateFileHash opts.fileContent)
        && decide (b.providerCode = opts.providerCode)) = true := by
  unfold importGenericRatebook
  cases hd : dupCheck st (generateFileHash opts.fileContent) opts.providerCode with
  | some prior =>
      simp only [hd]
      have hd2 := hd
      unfold dupCheck at hd2
      have hp := List.find?_some hd2
      exact ⟨prior, List.mem_of_find?_eq_some hd2, hp⟩
  | none =>
      simp only [hd]
      cases parsed with
      | error msg =>
          apply exists_of_map_eq dupKey
            (fun k => decide (k.1 = generateFileHash opts.fileContent)
              && decide (k.2.1 = opts.providerCode))
            (setParseFailed_map_proj dupKey (fun b m => rfl) _ _ _)
          refine ⟨_, List.mem_append_right _ (List.mem_singleton.2 rfl), ?_⟩
          simp [newImportBatch, dupKey]
      | ok records =>
          apply exists_of_map_eq dupKey
            (fun k => decide (k.1 = generateFileHash opts.fileContent)
              && decide (k.2.1 = opts.providerCode))
            (finalizeImport_map_proj dupKey (fun b st w el ca => rfl) _ _ _ _ _ _)
          apply exists_of_map_eq dupKey
            (fun k => decide (k.1 = generateFileHash opts.fileContent)
              && decide (k.2.1 = opts.providerCode))
            (runBatches_map_proj dupKey (fun b w => rfl) _ _ _ _ _ _ _ _ _ _)
          refine ⟨_, List.mem_append_right _ (List.mem_singleton.2 rfl), ?_⟩
          simp [newImportBatch, dupKey]

/-- C1: a second import with identical file content bytes and the same
providerCode is rejected as a duplicate: it returns success false with an error
message naming the prior batch's creation timestamp, leaves the database state
(batches, RateRecords, providers, latest flags) completely unchanged, writes no
progress counters, and reports an empty importId with zero counters — no
provider resolution, latest-flag change or parsing takes place. -/
theorem C1_duplicate_import_rejected (st : DBState) (opts1 opts2 : ImportOptions)
    (parsed1 parsed2 : Except String (List Row)) (f1 f2 : Nat → Bool) (sc1 sc2 : Bool)
    (hcontent : opts1.fileContent = opts2.fileContent)
    (hprov : opts1.providerCode = opts2.providerCode) :
    (importGenericRatebook (importGenericRatebook st opts1 parsed1 f1 sc1).1
        opts2 parsed2 f2 sc2).1
      = (importGenericRatebook st opts1 parsed1 f1 sc1).1
    ∧ (importGenericRatebook (importGenericRatebook st opts1 parsed1 f1 sc1).1
        opts2 parsed2 f2 sc2).2.1.success = false
    ∧ (importGenericRatebook (importGenericRatebook st opts1 parsed1 f1 sc1).1
        opts2 parsed2 f2 sc2).2.1.importId = none
    ∧ (importGenericRatebook (importGenericRatebook st opts1 parsed1 f1 sc1).1
        opts2 parsed2 f2 sc2).2.1.totalRows = 0
    ∧ (importGenericRatebook (importGenericRatebook st opts1 parsed1 f1 sc1).1
        opts2 parsed2 f2 sc2).2.1.successRows = 0
    ∧ (importGenericRatebook (importGenericRatebook st opts1 parsed1 f1 sc1).1
        opts2 parsed2 f2 sc2).2.1.errorRows = 0
    ∧ (importGenericRatebook (importGenericRatebook st opts1 parsed1 f1 sc1).1
        opts2 parsed2 f2 sc2).2.1.uniqueCapCodes = 0
    ∧ (importGenericRatebook (importGenericRatebook st opts1 parsed1 f1 sc1).1
        opts2 parsed2 f2 sc2).2.2 = []
    ∧ ∃ b ∈ (importGenericRatebook st opts1 parsed1 f1 sc1).1.imports,
        b.fileHash = generateFileHash opts2.fileContent
        ∧ b.providerCode = opts2.providerCode
        ∧ (importGenericRatebook (importGenericRatebook st opts1 parsed1 f1 sc1).1
            opts2 parsed2 f2 sc2).2.1.errors
          = ["Duplicate file detected. This ratebook was already imported on "
              ++ toString b.createdAt] := by
  obtain ⟨bm, hbmem, hbpred⟩ := run_leaves_dup_marker st opts1 parsed1 f1 sc1
  rw [hcontent, hprov] at hbpred
  have hsome : ((importGenericRatebook st opts1 parsed1 f1 sc1).1.imports.find?
      (fun b => decide (b.fileHash = generateFileHash opts2.fileContent)
        && decide (b.providerCode = opts2.providerCode))).isSome := by
    rw [List.find?_isSome]
    exact ⟨bm, hbmem, hbpred⟩
  cases hd2 : dupCheck (importGenericRatebook st opts1 parsed1 f1 sc1).1
      (generateFileHash opts2.fileContent) opts2.providerCode with
  | none =>
      unfold dupCheck at hd2
      rw [hd2] at hsome
      exact absurd hsome (by simp)
  | some prior =>
      have hrej := run_rejects (importGenericRatebook st opts1 parsed1 f1 sc1).1
        opts2 parsed2 f2 sc2 prior hd2
      have hd3 := hd2
      unfold dupCheck at hd3
      have hpred := List.find?_some hd3
      simp only [Bool.and_eq_true, decide_eq_true_eq] at hpred
      have hmem := List.mem_of_find?_eq_some hd3
      rw [hrej]
      exact ⟨rfl, rfl, rfl, rfl, rfl, rfl, rfl, rfl,
        prior, hmem, hpred.1, hpred.2, rfl⟩

/-- Witness for C1: importing the same bytes twice for the same provider over an
empty database leaves the post-first-import state unchanged and fails the second
call. -/
theorem C1_duplicate_import_rejected_witness :
    (importGenericRatebook (importGenericRatebook emptyDb demoOpts (.ok demoRows)
        (fun _ => false) false).1 demoOpts (.ok demoRows) (fun _ => false) false).1
      = (importGenericRatebook emptyDb demoOpts (.ok demoRows) (fun _ => false) false).1
    ∧ (importGenericRatebook (importGenericRatebook emptyDb demoOpts (.ok demoRows)
        (fun _ => false) false).1 demoOpts (.ok demoRows) (fun _ => false) false).2.1.success
      = false
    ∧ ∃ b ∈ (importGenericRatebook emptyDb demoOpts (.ok demoRows)
        (fun _ => false) false).1.imports,
        b.fileHash = generateFileHash demoOpts.fileContent
        ∧ b.providerCode = demoOpts.providerCode
        ∧ (importGenericRatebook (importGenericRatebook emptyDb demoOpts (.ok demoRows)
            (fun _ => false) false).1 demoOpts (.ok demoRows) (fun _ => false) false).2.1.errors
          = ["Duplicate file detected. This ratebook was already imported on "
              ++ toString b.createdAt] := by
  have h := C1_duplicate_import_rejected emptyDb demoOpts demoOpts (.ok demoRows) (.ok demoRows)
    (fun _ => false) (fun _ => false) false false rfl rfl
  exact ⟨h.1, h.2.1, h.2.2.2.2.2.2.2.2⟩
